import Mathlib

/-!
A shallow embedding of `src/scripts/download_chapter.py`.

The script is a single sequential procedure with two JSON-over-HTTP
metadata fetches, a per-page download loop, and best-effort cleanup.
The embedding makes every external effect explicit:

* the network is an `Env` value: the decoded series document, the decoded
  page-list document for each URL, and a per-page outcome (success with a
  content-type and body, a timeout, or a request error);
* the filesystem is an `Fs` value (directories and files), threaded through
  the run; `os.makedirs`, `open(..., "wb").write` and `os.rmdir` failures
  (OSError) are controlled by the `Env`;
* `print` to stdout/stderr and every `requests.get` are recorded in trace
  lists inside `St`;
* a Python exception in flight is a `PyExn` value; the `try/except` chain of `download_chapter` is the wrapper around `download_chapter_body`.

Machine-level caveats of the model: `str.isalnum` is modelled by the ASCII
`Char.isAlphanum` (the claims do not depend on non-ASCII slugs), and JSON
payloads are modelled by the shapes the script actually distinguishes.
-/

namespace MangaDL

/-- A snapshot of the local filesystem: the set of existing directories and
the regular files (path paired with byte content). -/
structure Fs where
  dirs : List String
  files : List (String × List Nat)
deriving DecidableEq

/-- Run state: filesystem plus the observable traces of the run — stdout
lines, stderr lines, and every URL passed to `requests.get`, in order. -/
structure St where
  fs : Fs
  out : List String
  err : List String
  gets : List String
deriving DecidableEq

/-- Python `dict.get`: first binding of the key in the association list
(Python dict keys are unique, so first-match lookup is exact). -/
def dictGet {α : Type} (m : List (String × α)) (k : String) : Option α :=
  (m.find? (fun p => p.1 = k)).map (fun p => p.2)

/-- Executable prefix test on character lists. -/
def isPrefixCheck : List Char → List Char → Bool
  | [], _ => true
  | _ :: _, [] => false
  | a :: as, b :: bs => decide (a = b) && isPrefixCheck as bs

/-- Executable infix (contiguous sublist) test on character lists. -/
def isInfixCheck (pat : List Char) : List Char → Bool
  | [] => decide (pat = [])
  | c :: rest => isPrefixCheck pat (c :: rest) || isInfixCheck pat rest

/-- Substring test, modelling the Python test `pat in s`. -/
def strContains (s pat : String) : Bool :=
  isInfixCheck pat.data s.data

/-- Python `str.rstrip()`: drop trailing whitespace. -/
def strRstrip (s : String) : String :=
  ⟨(s.data.reverse.dropWhile (fun c => c.isWhitespace)).reverse⟩

/-- Line 64: `"".join(c for c in series_slug if c.isalnum() or c in ('_', '-')).rstrip()`. -/
def sanitizeSlug (s : String) : String :=
  strRstrip ⟨s.data.filter (fun c => c.isAlphanum || c = '_' || c = '-')⟩

/-- Posix `os.path.join` for one extra component, as in `posixpath.join`:
an absolute second component wins; otherwise a `/` separator is inserted
unless the first component is empty or already ends in `/`. -/
def ospJoin (a b : String) : String :=
  if b.data.head? = some '/' then b
  else if a.data = [] then b
  else if a.data.getLast? = some '/' then a ++ b
  else a ++ "/" ++ b

/-- Decimal digit as a character. -/
def digitChar : Nat → Char
  | 0 => '0' | 1 => '1' | 2 => '2' | 3 => '3' | 4 => '4'
  | 5 => '5' | 6 => '6' | 7 => '7' | 8 => '8' | 9 => '9'
  | _ => '*'

/-- Big-endian decimal digits of `n`, with explicit fuel so that the
definition is structural (the first argument is the fuel; it is enough
whenever `n ≤ fuel`). -/
def natCharsAux : Nat → Nat → List Char
  | _, 0 => []
  | 0, _ + 1 => []
  | fuel + 1, n + 1 => natCharsAux fuel ((n + 1) / 10) ++ [digitChar ((n + 1) % 10)]

/-- Big-endian decimal digits of `n` (empty for 0, which the script never
formats: page numbers start at 1). -/
def natChars (n : Nat) : List Char := natCharsAux n n

/-- Python `f"{n:03d}"`: decimal, zero-padded on the left to width at least 3. -/
def pad3 (n : Nat) : String :=
  ⟨List.replicate (3 - (natChars n).length) '0' ++ natChars n⟩

/-- Line 91: the basename `f"page_{page:03d}.{extension}"`. -/
def pageFileName (page : Nat) (extension : String) : String :=
  "page_" ++ pad3 page ++ "." ++ extension

/-- Lines 79-89: infer a file extension from the `content-type` header,
defaulting to `png`; an absent or empty header keeps the default
(`if content_type:` is Python truthiness). -/
def inferExt (contentType : Option String) : String :=
  match contentType with
  | none => "png"
  | some ct =>
    if ct = "" then "png"
    else if strContains ct "jpeg" || strContains ct "jpg" then "jpg"
    else if strContains ct "png" then "png"
    else if strContains ct "webp" then "webp"
    else if strContains ct "gif" then "gif"
    else "png"

/-- Value of a digit character. -/
def chVal (c : Char) : Nat := c.toNat - 48

/-- Decimal value of a character list, most significant first. -/
def strVal (l : List Char) : Nat := l.foldl (fun a c => 10 * a + chVal c) 0

/-- The `os.makedirs(p, exist_ok=True)` effect on a filesystem. -/
def Fs.mkdir (fs : Fs) (p : String) : Fs :=
  if p ∈ fs.dirs then fs else { fs with dirs := fs.dirs ++ [p] }

/-- The `os.rmdir(p)` effect on a filesystem (when it does not raise). -/
def Fs.rmdir (fs : Fs) (p : String) : Fs :=
  { fs with dirs := fs.dirs.filter (fun q => decide (q ≠ p)) }

/-- The `open(p, "wb"); f.write(b)` effect: truncate an existing file or
create a new one. -/
def Fs.write (fs : Fs) (p : String) (b : List Nat) : Fs :=
  if fs.files.any (fun q => q.1 = p) then
    { fs with files := fs.files.map (fun q => if q.1 = p then (p, b) else q) }
  else
    { fs with files := fs.files ++ [(p, b)] }

/-- Outcome of `requests.get(proxy_url, timeout=30)` followed by
`raise_for_status()` for one page: a 2xx response with its `content-type`
header and body, a `requests.Timeout`, or any other
`requests.RequestException` (carrying its message). -/
inductive PageOutcome where
  | ok (contentType : Option String) (body : List Nat)
  | timeout
  | reqError (msg : String)
deriving DecidableEq

/-- A chapter record of the series document, as the script reads it: the
`groups` key (an ordered mapping from group key to page-list URL), `none`
when the key is missing (a `KeyError` on access); `hasOtherKeys` records
whether the record holds any other key, which only matters for Python
truthiness of the record (`if not chapter_data:`). -/
structure ChapterRec where
  groups : Option (List (String × String))
  hasOtherKeys : Bool
deriving DecidableEq

/-- Python truthiness of a chapter record (a dict is falsy iff empty). -/
def ChapterRec.truthy (c : ChapterRec) : Bool :=
  c.groups.isSome || c.hasOtherKeys

/-- The decoded page-list document: either a bare JSON list of page URLs, a
JSON object whose optional `pages` key holds the list, or any other JSON
shape (carrying the text of its Python type for the error message). -/
inductive ChapterDetails where
  | jlist (urls : List String)
  | jdict (pages : Option (List String))
  | other (typeName : String)
deriving DecidableEq

/-- The page URLs the script extracts from a page-list document, `none` on
the unexpected-shape branch (lines 47-53). -/
def imageUrlsOf : ChapterDetails → Option (List String)
  | .jlist l => some l
  | .jdict pages => some (pages.getD [])
  | .other _ => none

/-- The decoded series document: the `chapters` mapping, `none` when the
key is missing (a `KeyError` on access). -/
structure SeriesDoc where
  chapters : Option (List (String × ChapterRec))
deriving DecidableEq

/-- A Python exception in flight, covering everything the modelled
operations can raise: a `requests.RequestException` (which includes
`HTTPError` from `raise_for_status` and JSON decode errors), a `KeyError`,
and an `OSError` from `makedirs`/`open`/`write`.  All are subclasses of
`Exception`, so the handler chain of the script catches all of them. -/
inductive PyExn where
  | reqExn (msg : String)
  | keyError (key : String)
  | osError (msg : String)
deriving DecidableEq

/-- The message each `except` clause of lines 116-124 prints for an
exception (`str(KeyError(k))` is the quoted key). -/
def excMessage : PyExn → String
  | .reqExn m => "Network error occurred: " ++ m
  | .keyError k => "Data structure error: Missing key \x27" ++ k ++ "\x27"
  | .osError m => "Unexpected error: " ++ m

/-- The behaviour of the world outside the script for one run: the decoded
metadata responses, the per-page download outcomes, and whether each
filesystem mutation raises `OSError` (with which message). -/
structure Env where
  seriesResp : Except String SeriesDoc
  detailsResp : String → Except String ChapterDetails
  pageResp : Nat → String → PageOutcome
  makedirsErr : String → Option String
  writeErr : String → Option String
  rmdirErr : String → Option String

/-- The URL of the series-metadata endpoint (line 13). -/
def series_url_of (series_slug : String) : String :=
  "https://cubari.moe/read/api/weebcentral/series/" ++ series_slug ++ "/"

/-- The chapter-specific output directory of lines 64-65. -/
def chapter_dir (series_slug chapter_number output_dir : String) : String :=
  ospJoin output_dir (sanitizeSlug series_slug ++ "_Chapter_" ++ chapter_number)

/-- Lines 26-36: choose a page-list URL from the groups of the chapter.  Prefer
key `"1"`; `if not group_url:` (absent key or empty URL) fall back to the
URL of the first key (line 32 looks the first key up in the dict, which
yields the first value, since dict keys are unique); with no groups,
report failure.  Returns the updated trace state and the chosen URL. -/
def select_group (chapter_number : String) (groups : List (String × String))
    (st : St) : St × Option String :=
  let fallback : St × Option String :=
    let st1 : St := { st with err := st.err ++
      ["Group \x271\x27 (WeebCentral) not found for chapter " ++ chapter_number] }
    match groups with
    | [] =>
      ({ st1 with err := st1.err ++
        ["No groups found for chapter " ++ chapter_number] }, none)
    | (group_key, group_url) :: _ =>
      ({ st1 with out := st1.out ++
        ["Using first available group: " ++ group_key] }, some group_url)
  match dictGet groups "1" with
  | some u => if u = "" then fallback else (st, some u)
  | none => fallback

/-- Lines 70-101: the page download loop.  `page` is the 1-based index of
the head of the remaining URL list, `acc` is `downloaded_files` so far.  A
timeout or request failure is logged to stderr and skipped; a 2xx response
has its body written to `page_{page:03d}.{ext}` inside `dir`, where an
`OSError` from the write aborts the loop with the exception in flight. -/
def downloadPages (env : Env) (dir : String) (total : Nat) :
    List String → Nat → St → List String → St × Except PyExn (List String)
  | [], _, st, acc => (st, .ok acc)
  | url :: rest, page, st, acc =>
    let st1 : St := { st with
      out := st.out ++ ["Downloading page " ++ toString page ++ "/" ++
        toString total ++ " from " ++ url ++ "..."],
      gets := st.gets ++ [url] }
    match env.pageResp page url with
    | .timeout =>
      downloadPages env dir total rest (page + 1)
        { st1 with err := st1.err ++ ["Timeout downloading page " ++ toString page] } acc
    | .reqError m =>
      downloadPages env dir total rest (page + 1)
        { st1 with err := st1.err ++
          ["Failed to download page " ++ toString page ++ ": " ++ m] } acc
    | .ok ct body =>
      let fp := ospJoin dir (pageFileName page (inferExt ct))
      match env.writeErr fp with
      | some m => (st1, .error (.osError m))
      | none =>
        let st2 : St := { st1 with
          fs := st1.fs.write fp body,
          out := st1.out ++ ["Saved page " ++ toString page ++ " to " ++ fp] }
        downloadPages env dir total rest (page + 1) st2 (acc ++ [fp])

/-- Lines 102-114: after the loop, report success with the directory when
at least one page was saved; otherwise remove the empty chapter directory
(best-effort: an `OSError` is logged, not fatal) and report failure. -/
def after_pages (env : Env) (chapter_number chapter_specific_dir : String)
    (total_pages : Nat) (image_urls : List String) (st : St) :
    St × Except PyExn (Option String) :=
  match downloadPages env chapter_specific_dir total_pages image_urls 1 st [] with
  | (st, .error e) => (st, .error e)
  | (st, .ok downloaded_files) =>
    let download_count := downloaded_files.length
    if download_count > 0 then
      ({ st with out := st.out ++
        ["Successfully downloaded " ++ toString download_count ++ "/" ++
          toString total_pages ++ " pages for chapter " ++ chapter_number ++
          " to " ++ chapter_specific_dir] }, .ok (some chapter_specific_dir))
    else
      let st1 : St := { st with err := st.err ++
        ["Failed to download any pages for chapter " ++ chapter_number ++ "."] }
      match env.rmdirErr chapter_specific_dir with
      | none =>
        ({ st1 with
          fs := st1.fs.rmdir chapter_specific_dir,
          out := st1.out ++
            ["Removed empty directory: " ++ chapter_specific_dir] }, .ok none)
      | some m =>
        ({ st1 with err := st1.err ++
          ["Could not remove directory " ++ chapter_specific_dir ++ ": " ++ m] },
         .ok none)

/-- Lines 38-114: once a page-list URL is selected, fetch the page-list
document, extract the page URLs, create the chapter directory and run the
download loop. -/
def fetch_pages_phase (env : Env)
    (series_slug chapter_number output_dir group_url : String) (st : St) :
    St × Except PyExn (Option String) :=
  let chapter_details_url := "https://cubari.moe" ++ group_url
  let st : St := { st with
    out := st.out ++ ["Fetching chapter details from: " ++ chapter_details_url],
    gets := st.gets ++ [chapter_details_url] }
  match env.detailsResp chapter_details_url with
  | .error m => (st, .error (.reqExn m))
  | .ok chapter_details =>
  let st : St := { st with out := st.out ++ ["Successfully fetched chapter details."] }
  match imageUrlsOf chapter_details with
  | none =>
    ({ st with err := st.err ++ ["Unexpected chapter details type: " ++
      (match chapter_details with | .other t => t | _ => "")] }, .ok none)
  | some image_urls =>
  let total_pages := image_urls.length
  if total_pages = 0 then
    ({ st with out := st.out ++ ["No pages found for chapter " ++ chapter_number] },
     .ok none)
  else
  let st : St := { st with out := st.out ++ ["Found " ++ toString total_pages ++
    " pages for chapter " ++ chapter_number ++ "."] }
  let chapter_specific_dir := chapter_dir series_slug chapter_number output_dir
  match env.makedirsErr chapter_specific_dir with
  | some m => (st, .error (.osError m))
  | none =>
  let st : St := { st with
    fs := st.fs.mkdir chapter_specific_dir,
    out := st.out ++ ["Output directory: " ++ chapter_specific_dir] }
  after_pages env chapter_number chapter_specific_dir total_pages image_urls st

/-- Lines 8-114: the body of `download_chapter` inside the outer `try`.
The second component is the normal return value (`.ok`) or the exception
in flight (`.error`), with the state at that moment. -/
def download_chapter_body (env : Env)
    (series_slug chapter_number output_dir : String) (fs0 : Fs) :
    St × Except PyExn (Option String) :=
  let st : St := { fs := fs0, out := [], err := [], gets := [] }
  match env.makedirsErr output_dir with
  | some m => (st, .error (.osError m))
  | none =>
  let st : St := { st with fs := st.fs.mkdir output_dir }
  let series_url := series_url_of series_slug
  let st : St := { st with
    out := st.out ++ ["Fetching series data from: " ++ series_url],
    gets := st.gets ++ [series_url] }
  match env.seriesResp with
  | .error m => (st, .error (.reqExn m))
  | .ok series_data =>
  let st : St := { st with out := st.out ++ ["Successfully fetched series data."] }
  match series_data.chapters with
  | none => (st, .error (.keyError "chapters"))
  | some chapters =>
  let notFound : St × Except PyExn (Option String) :=
    ({ st with err := st.err ++ ["Chapter " ++ chapter_number ++
      " not found for series " ++ series_slug] }, .ok none)
  match dictGet chapters chapter_number with
  | none => notFound
  | some chapter_data =>
  if chapter_data.truthy = false then notFound
  else
  match chapter_data.groups with
  | none => (st, .error (.keyError "groups"))
  | some groups =>
  let sel := select_group chapter_number groups st
  match sel.2 with
  | none => (sel.1, .ok none)
  | some group_url =>
    fetch_pages_phase env series_slug chapter_number output_dir group_url sel.1

/-- Lines 7-124: `download_chapter`, with the handler chain of lines
116-124 around the body: `requests.RequestException`, `KeyError` and the
catch-all `except Exception` each print to stderr and return `None`. -/
def download_chapter (env : Env)
    (series_slug chapter_number output_dir : String) (fs0 : Fs) :
    St × Option String :=
  match download_chapter_body env series_slug chapter_number output_dir fs0 with
  | (st, .ok r) => (st, r)
  | (st, .error (.reqExn m)) =>
    ({ st with err := st.err ++ ["Network error occurred: " ++ m] }, none)
  | (st, .error (.keyError k)) =>
    ({ st with err := st.err ++
      ["Data structure error: Missing key \x27" ++ k ++ "\x27"] }, none)
  | (st, .error (.osError m)) =>
    ({ st with err := st.err ++ ["Unexpected error: " ++ m] }, none)

/-- Lines 126-144: the CLI entry point after argument parsing.  Returns
the final state and the process exit code; `if result_path:` is Python
truthiness of the returned string. -/
def main_run (env : Env)
    (series_slug chapter_number output_dir : String) (fs0 : Fs) : St × Nat :=
  match download_chapter env series_slug chapter_number output_dir fs0 with
  | (st, some result_path) =>
    if result_path = "" then
      ({ st with err := st.err ++ ["Script finished with errors."] }, 1)
    else
      ({ st with out := st.out ++
        ["Script finished successfully. Chapter downloaded to: " ++ result_path,
         "DOWNLOAD_PATH:" ++ result_path] }, 0)
  | (st, none) =>
    ({ st with err := st.err ++ ["Script finished with errors."] }, 1)

/-! ### Derived closed forms of the loop (proof-layer definitions) -/

/-- The fallback of lines 29-36: the URL of the first group, if any. -/
def selectFallback : List (String × String) → Option String
  | [] => none
  | (_, group_url) :: _ => some group_url

/-- The page-list URL selection of lines 26-36, as a pure function: the
trace-free counterpart of `select_group`. -/
def selectGroupUrl (groups : List (String × String)) : Option String :=
  match dictGet groups "1" with
  | some u => if u = "" then selectFallback groups else some u
  | none => selectFallback groups

/-- The files the download loop writes: for each page with a 2xx outcome,
its path (from the 1-based page index and inferred extension) paired with
the response body. -/
def okPairs (env : Env) (dir : String) : List String → Nat → List (String × List Nat)
  | [], _ => []
  | u :: rest, page =>
    match env.pageResp page u with
    | .ok ct body =>
      (ospJoin dir (pageFileName page (inferExt ct)), body) :: okPairs env dir rest (page + 1)
    | _ => okPairs env dir rest (page + 1)

/-- The stdout lines the download loop prints. -/
def loopOut (env : Env) (dir : String) (total : Nat) : List String → Nat → List String
  | [], _ => []
  | u :: rest, page =>
    ("Downloading page " ++ toString page ++ "/" ++ toString total ++
      " from " ++ u ++ "...") ::
    match env.pageResp page u with
    | .ok ct _ =>
      ("Saved page " ++ toString page ++ " to " ++
        ospJoin dir (pageFileName page (inferExt ct))) :: loopOut env dir total rest (page + 1)
    | _ => loopOut env dir total rest (page + 1)

/-- The stderr lines the download loop prints. -/
def loopErr (env : Env) : List String → Nat → List String
  | [], _ => []
  | u :: rest, page =>
    match env.pageResp page u with
    | .ok _ _ => loopErr env rest (page + 1)
    | .timeout =>
      ("Timeout downloading page " ++ toString page) :: loopErr env rest (page + 1)
    | .reqError m =>
      ("Failed to download page " ++ toString page ++ ": " ++ m) ::
        loopErr env rest (page + 1)

/-- Sequential file writes. -/
def writeAll (fs : Fs) : List (String × List Nat) → Fs
  | [] => fs
  | (p, b) :: rest => writeAll (fs.write p b) rest

/-- Whether a page outcome is a 2xx response. -/
def PageOutcome.isOk : PageOutcome → Bool
  | .ok _ _ => true
  | _ => false

/-- The content-type header of a successful page fetch (`none` otherwise). -/
def pageCT (env : Env) (page : Nat) (u : String) : Option String :=
  match env.pageResp page u with
  | .ok ct _ => ct
  | _ => none

/-! ### Concrete environments for witnesses and counterexamples -/

/-- A series document with one chapter `"1"` whose groups are `{"1": "/g"}`. -/
def sampleDoc : SeriesDoc :=
  ⟨some [("1", ⟨some [("1", "/g")], false⟩)]⟩

/-- Happy path: two pages, both downloads succeed with `image/jpeg`. -/
def envHappy : Env :=
  { seriesResp := .ok sampleDoc,
    detailsResp := fun _ => .ok (.jlist ["u1", "u2"]),
    pageResp := fun p _ => .ok (some "image/jpeg") [p],
    makedirsErr := fun _ => none,
    writeErr := fun _ => none,
    rmdirErr := fun _ => none }

/-- Every page download times out, and `os.rmdir` fails. -/
def envAllFailRmErr : Env :=
  { envHappy with
    detailsResp := fun _ => .ok (.jlist ["u1"]),
    pageResp := fun _ _ => .timeout,
    rmdirErr := fun _ => some "Device or resource busy" }

/-- Every page download times out; `os.rmdir` succeeds. -/
def envAllFailRmOk : Env :=
  { envAllFailRmErr with rmdirErr := fun _ => none }

/-- Two pages whose fetches succeed, but writing the file of the second page
raises `OSError`. -/
def envWriteFail : Env :=
  { envHappy with
    pageResp := fun _ _ => .ok (some "image/png") [7],
    writeErr := fun p =>
      if p = "o/s_Chapter_1/page_002.png" then some "No space left on device" else none }

/-- One page whose fetch succeeds but whose file write raises `OSError`,
while `os.rmdir` would succeed everywhere: a zero-success run that aborts
in the loop instead of completing it. -/
def envWriteFailNoPages : Env :=
  { envHappy with
    detailsResp := fun _ => .ok (.jlist ["u1"]),
    pageResp := fun _ _ => .ok (some "image/png") [7],
    writeErr := fun _ => some "No space left on device" }

/-- A chapter whose group mapping is `{"2": "/b", "1": ""}` (in that order):
the primary key `"1"` is present but its URL is empty. -/
def envEmptyPrimary : Env :=
  { envHappy with
    seriesResp := .ok ⟨some [("1", ⟨some [("2", "/b"), ("1", "")], false⟩)]⟩,
    detailsResp := fun _ => .ok (.jlist []) }

/-- One page whose content-type is the string `"jpgpng"`, which contains
both `jpg` and `png`. -/
def envJpgPng : Env :=
  { envHappy with
    detailsResp := fun _ => .ok (.jlist ["u1"]),
    pageResp := fun _ _ => .ok (some "jpgpng") [1] }

/-- Two pages: the first succeeds, the second times out. -/
def envMixed : Env :=
  { envHappy with
    pageResp := fun p _ => if p = 2 then .timeout else .ok (some "image/png") [p] }

/-- The page-list document is an empty list. -/
def envEmptyPages : Env :=
  { envHappy with detailsResp := fun _ => .ok (.jlist []) }

/-- The page-list document is an object with no `pages` key. -/
def envNoPagesKey : Env :=
  { envHappy with detailsResp := fun _ => .ok (.jdict none) }

/-- The series-metadata fetch raises a `requests` error. -/
def envSeriesErr : Env :=
  { envHappy with seriesResp := .error "Connection refused" }

/-- A chapter record with an empty group mapping. -/
def envNoGroups : Env :=
  { envHappy with seriesResp := .ok ⟨some [("1", ⟨some [], true⟩)]⟩ }

/-! ### String groundwork -/

lemma strData_append : ∀ a b : String, (a ++ b).data = a.data ++ b.data
  | ⟨_⟩, ⟨_⟩ => rfl

lemma strEq_of_data : ∀ {a b : String}, a.data = b.data → a = b
  | ⟨_⟩, ⟨_⟩, h => congrArg String.mk h

lemma strData_ne_nil_of_append_middle (a b c : String) (hb : b.data ≠ []) :
    (a ++ b ++ c).data ≠ [] := by
  rw [strData_append, strData_append]
  intro h
  rcases List.append_eq_nil.mp h with ⟨h1, -⟩
  rcases List.append_eq_nil.mp h1 with ⟨-, h3⟩
  exact hb h3

lemma ospJoin_ne_nil (a b : String) (hb : b.data ≠ []) : ospJoin a b ≠ "" := by
  intro h
  have hd : (ospJoin a b).data = [] := by rw [h]
  unfold ospJoin at hd
  split at hd
  · exact hb hd
  · split at hd
    · exact hb hd
    · split at hd
      · rw [strData_append] at hd
        exact hb (List.append_eq_nil.mp hd).2
      · rw [strData_append, strData_append] at hd
        exact hb (List.append_eq_nil.mp hd).2

lemma ospJoin_ne_left (a b : String) (hb : b.data ≠ [])
    (hh : b.data.head? ≠ some '/') : ospJoin a b ≠ a := by
  have hbl : b.data.length ≠ 0 := fun hz => hb (List.length_eq_zero.mp hz)
  unfold ospJoin
  rw [if_neg hh]
  by_cases ha : a.data = []
  · rw [if_pos ha]
    intro h
    rw [h] at hb
    exact hb ha
  · rw [if_neg ha]
    by_cases hl : a.data.getLast? = some '/'
    · rw [if_pos hl]
      intro h
      have := congrArg (fun s : String => s.data.length) h
      simp only [strData_append, List.length_append] at this
      omega
    · rw [if_neg hl]
      intro h
      have := congrArg (fun s : String => s.data.length) h
      simp only [strData_append, List.length_append] at this
      have h1 : ("/" : String).data.length = 1 := rfl
      omega

lemma ospJoin_inj_right (a b₁ b₂ : String)
    (h₁ : b₁.data.head? ≠ some '/') (h₂ : b₂.data.head? ≠ some '/')
    (h : ospJoin a b₁ = ospJoin a b₂) : b₁ = b₂ := by
  unfold ospJoin at h
  rw [if_neg h₁, if_neg h₂] at h
  by_cases ha : a.data = []
  · rwa [if_pos ha, if_pos ha] at h
  · rw [if_neg ha, if_neg ha] at h
    by_cases hl : a.data.getLast? = some '/'
    · rw [if_pos hl, if_pos hl] at h
      have := congrArg String.data h
      rw [strData_append, strData_append] at this
      exact strEq_of_data (List.append_cancel_left this)
    · rw [if_neg hl, if_neg hl] at h
      have := congrArg String.data h
      rw [strData_append, strData_append, strData_append, strData_append] at this
      rw [List.append_assoc, List.append_assoc] at this
      exact strEq_of_data (List.append_cancel_left (List.append_cancel_left this))

/-! ### Decimal formatting -/

lemma chVal_digitChar : ∀ d, d < 10 → chVal (digitChar d) = d := by decide

lemma digitChar_ne_dot : ∀ d, d < 10 → digitChar d ≠ '.' := by decide

lemma chVal_zero : chVal '0' = 0 := by decide

lemma mem_natCharsAux : ∀ fuel n c, c ∈ natCharsAux fuel n →
    ∃ d, d < 10 ∧ c = digitChar d := by
  intro fuel
  induction fuel with
  | zero =>
    intro n c hc
    cases n <;> simp [natCharsAux] at hc
  | succ fuel ih =>
    intro n c hc
    match n with
    | 0 => simp [natCharsAux] at hc
    | m + 1 =>
      rw [natCharsAux] at hc
      rcases List.mem_append.mp hc with h | h
      · exact ih _ _ h
      · exact ⟨(m + 1) % 10, Nat.mod_lt _ (by omega), List.mem_singleton.mp h⟩

lemma strVal_append_singleton (l : List Char) (c : Char) :
    strVal (l ++ [c]) = 10 * strVal l + chVal c := by
  unfold strVal
  rw [List.foldl_append]
  rfl

lemma natCharsAux_val : ∀ fuel n, n ≤ fuel → strVal (natCharsAux fuel n) = n := by
  intro fuel
  induction fuel with
  | zero =>
    intro n hn
    interval_cases n
    rfl
  | succ fuel ih =>
    intro n hn
    match n with
    | 0 => rfl
    | m + 1 =>
      rw [natCharsAux, strVal_append_singleton,
        ih ((m + 1) / 10) (by omega),
        chVal_digitChar _ (Nat.mod_lt _ (by omega))]
      omega

lemma natChars_val (n : Nat) : strVal (natChars n) = n :=
  natCharsAux_val n n le_rfl

lemma strVal_replicate_zero : ∀ k (l : List Char),
    strVal (List.replicate k '0' ++ l) = strVal l := by
  intro k
  induction k with
  | zero => intro l; rfl
  | succ k ih =>
    intro l
    have : List.replicate (k + 1) '0' ++ l = '0' :: (List.replicate k '0' ++ l) := by
      simp [List.replicate_succ]
    rw [this]
    unfold strVal at ih ⊢
    simpa [chVal_zero] using ih l

lemma pad3_val (n : Nat) : strVal (pad3 n).data = n := by
  unfold pad3
  show strVal (List.replicate (3 - (natChars n).length) '0' ++ natChars n) = n
  rw [strVal_replicate_zero, natChars_val]

lemma pad3_inj {m n : Nat} (h : pad3 m = pad3 n) : m = n := by
  have := congrArg (fun s : String => strVal s.data) h
  simpa [pad3_val] using this

lemma mem_pad3_data (n : Nat) (c : Char) (hc : c ∈ (pad3 n).data) :
    ∃ d, d < 10 ∧ c = digitChar d := by
  unfold pad3 at hc
  rcases List.mem_append.mp hc with h | h
  · exact ⟨0, by omega, (List.eq_of_mem_replicate h)⟩
  · exact mem_natCharsAux _ _ _ h

lemma dot_not_mem_pad3 (n : Nat) : '.' ∉ (pad3 n).data := by
  intro h
  rcases mem_pad3_data n _ h with ⟨d, hd, hc⟩
  exact digitChar_ne_dot d hd hc.symm

/-! ### Page file names are injective in the page index -/

lemma split_unique {α : Type} (c : α) :
    ∀ (l₁ l₂ r₁ r₂ : List α), c ∉ l₁ → c ∉ l₂ →
      l₁ ++ c :: r₁ = l₂ ++ c :: r₂ → l₁ = l₂ ∧ r₁ = r₂ := by
  intro l₁
  induction l₁ with
  | nil =>
    intro l₂ r₁ r₂ _ h₂ h
    cases l₂ with
    | nil => simpa using h
    | cons y t =>
      simp only [List.nil_append, List.cons_append, List.cons.injEq] at h
      exact absurd (h.1 ▸ List.mem_cons_self y t) h₂
  | cons x t ih =>
    intro l₂ r₁ r₂ h₁ h₂ h
    cases l₂ with
    | nil =>
      simp only [List.nil_append, List.cons_append, List.cons.injEq] at h
      exact absurd (h.1.symm ▸ List.mem_cons_self x t) h₁
    | cons y t₂ =>
      simp only [List.cons_append, List.cons.injEq] at h
      have := ih t₂ r₁ r₂ (fun hm => h₁ (List.mem_cons_of_mem x hm))
        (fun hm => h₂ (h.1 ▸ List.mem_cons_of_mem y hm)) h.2
      exact ⟨by rw [h.1, this.1], this.2⟩

lemma pageFileName_data (page : Nat) (e : String) :
    (pageFileName page e).data =
      'p' :: 'a' :: 'g' :: 'e' :: '_' :: ((pad3 page).data ++ '.' :: e.data) := by
  unfold pageFileName
  rw [strData_append, strData_append, strData_append]
  simp [List.append_assoc]

lemma pageFileName_head (page : Nat) (e : String) :
    (pageFileName page e).data.head? = some 'p' := by
  rw [pageFileName_data]
  rfl

lemma pageFileName_ne_nil (page : Nat) (e : String) :
    (pageFileName page e).data ≠ [] := by
  rw [pageFileName_data]
  simp

lemma pageFileName_inj {i j : Nat} {e₁ e₂ : String}
    (h : pageFileName i e₁ = pageFileName j e₂) : i = j := by
  have hd := congrArg String.data h
  rw [pageFileName_data, pageFileName_data] at hd
  simp only [List.cons.injEq, true_and] at hd
  have := split_unique '.' (pad3 i).data (pad3 j).data e₁.data e₂.data
    (dot_not_mem_pad3 i) (dot_not_mem_pad3 j) hd
  exact pad3_inj (strEq_of_data this.1)

lemma pagePath_inj {dir : String} {i j : Nat} {e₁ e₂ : String}
    (h : ospJoin dir (pageFileName i e₁) = ospJoin dir (pageFileName j e₂)) :
    i = j := by
  have hne : ∀ (p : Nat) (e : String), (pageFileName p e).data.head? ≠ some '/' := by
    intro p e
    rw [pageFileName_head]
    simp
  exact pageFileName_inj (ospJoin_inj_right dir _ _ (hne i e₁) (hne j e₂) h)

/-! ### The inferred extension is one of four dot-free literals -/

lemma inferExt_cases (ct : Option String) :
    inferExt ct = "jpg" ∨ inferExt ct = "png" ∨
    inferExt ct = "webp" ∨ inferExt ct = "gif" := by
  rcases ct with - | s
  · exact Or.inr (Or.inl rfl)
  · simp only [inferExt]
    split_ifs <;> simp

lemma inferExt_no_dot (ct : Option String) : '.' ∉ (inferExt ct).data := by
  rcases inferExt_cases ct with h | h | h | h <;> rw [h] <;> decide

/-! ### The chapter directory name -/

lemma sanitizeSlug_chars (s : String) :
    ∀ c ∈ (sanitizeSlug s).data, c.isAlphanum || c = '_' || c = '-' := by
  intro c hc
  unfold sanitizeSlug strRstrip at hc
  simp only at hc
  have h1 : c ∈ (s.data.filter (fun c => c.isAlphanum || c = '_' || c = '-')).reverse.dropWhile
      (fun c => c.isWhitespace) → c ∈ s.data.filter (fun c => c.isAlphanum || c = '_' || c = '-') := by
    intro hm
    exact List.mem_reverse.mp ((List.dropWhile_sublist _).mem hm)
  have h2 := h1 (List.mem_reverse.mp hc)
  exact (List.mem_filter.mp h2).2

lemma chapterName_data_ne_nil (s c : String) :
    (sanitizeSlug s ++ "_Chapter_" ++ c).data ≠ [] :=
  strData_ne_nil_of_append_middle _ _ _ (by decide)

lemma chapterName_head_ne_slash (s c : String) :
    (sanitizeSlug s ++ "_Chapter_" ++ c).data.head? ≠ some '/' := by
  rw [strData_append, strData_append]
  cases hd : (sanitizeSlug s).data with
  | nil => simp [hd]
  | cons x t =>
    have hx := sanitizeSlug_chars s x (hd ▸ List.mem_cons_self x t)
    simp only [List.cons_append, List.head?_cons]
    intro h
    rw [Option.some.injEq] at h
    subst h
    revert hx
    decide

lemma chapter_dir_ne_output (s c o : String) : chapter_dir s c o ≠ o :=
  ospJoin_ne_left o _ (chapterName_data_ne_nil s c) (chapterName_head_ne_slash s c)

lemma chapter_dir_ne_nil (s c o : String) : chapter_dir s c o ≠ "" :=
  ospJoin_ne_nil o _ (chapterName_data_ne_nil s c)

/-! ### Filesystem operation lemmas -/

lemma Fs.mkdir_files (fs : Fs) (p : String) : (fs.mkdir p).files = fs.files := by
  unfold Fs.mkdir
  split <;> rfl

lemma Fs.mem_mkdir_dirs (fs : Fs) (p q : String) :
    q ∈ (fs.mkdir p).dirs ↔ q ∈ fs.dirs ∨ q = p := by
  unfold Fs.mkdir
  split
  · rename_i h
    exact ⟨Or.inl, fun hq => hq.elim id (fun e => e ▸ h)⟩
  · simp

lemma Fs.write_dirs (fs : Fs) (p : String) (b : List Nat) :
    (fs.write p b).dirs = fs.dirs := by
  unfold Fs.write
  split <;> rfl

lemma Fs.rmdir_files (fs : Fs) (p : String) : (fs.rmdir p).files = fs.files := rfl

lemma Fs.mem_rmdir_dirs (fs : Fs) (p q : String) :
    q ∈ (fs.rmdir p).dirs ↔ q ∈ fs.dirs ∧ q ≠ p := by
  unfold Fs.rmdir
  simp [List.mem_filter]

lemma Fs.write_files_fresh (fs : Fs) (p : String) (b : List Nat)
    (h : ∀ q ∈ fs.files, q.1 ≠ p) :
    (fs.write p b).files = fs.files ++ [(p, b)] := by
  unfold Fs.write
  rw [if_neg]
  simp only [List.any_eq_true, decide_eq_true_eq, not_exists]
  intro q hq
  exact h q hq.1 hq.2

lemma writeAll_dirs (prs : List (String × List Nat)) :
    ∀ fs, (writeAll fs prs).dirs = fs.dirs := by
  induction prs with
  | nil => intro fs; rfl
  | cons pr rest ih =>
    intro fs
    cases pr with
    | mk p b => rw [writeAll, ih, Fs.write_dirs]

lemma writeAll_files (prs : List (String × List Nat)) :
    ∀ fs, (∀ pr ∈ prs, ∀ q ∈ fs.files, q.1 ≠ pr.1) →
      prs.Pairwise (fun a b => a.1 ≠ b.1) →
      (writeAll fs prs).files = fs.files ++ prs := by
  induction prs with
  | nil =>
    intro fs _ _
    simp [writeAll]
  | cons pr rest ih =>
    intro fs hfresh hpw
    cases pr with
    | mk p b =>
      have hw : (fs.write p b).files = fs.files ++ [(p, b)] :=
        Fs.write_files_fresh fs p b
          (fun q hq => hfresh (p, b) (List.mem_cons_self _ _) q hq)
      rw [writeAll, ih (fs.write p b) ?fresh (List.pairwise_cons.mp hpw).2, hw]
      · simp
      case fresh =>
        intro pr hpr q hq
        rw [hw] at hq
        rcases List.mem_append.mp hq with hm | hm
        · exact hfresh pr (List.mem_cons_of_mem _ hpr) q hm
        · rw [List.mem_singleton.mp hm]
          exact (List.pairwise_cons.mp hpw).1 pr hpr

/-! ### okPairs lemmas -/

lemma okPairs_key_bound (env : Env) (dir : String) :
    ∀ (urls : List String) (page : Nat) pr, pr ∈ okPairs env dir urls page →
      ∃ q ct, page ≤ q ∧ pr.1 = ospJoin dir (pageFileName q (inferExt ct)) := by
  intro urls
  induction urls with
  | nil =>
    intro page pr hpr
    simp [okPairs] at hpr
  | cons u rest ih =>
    intro page pr hpr
    rw [okPairs] at hpr
    cases hres : env.pageResp page u with
    | ok ct body =>
      rw [hres] at hpr
      rcases List.mem_cons.mp hpr with h | h
      · exact ⟨page, ct, le_rfl, by rw [h]⟩
      · rcases ih (page + 1) pr h with ⟨q, ct', hq, he⟩
        exact ⟨q, ct', by omega, he⟩
    | timeout =>
      rw [hres] at hpr
      rcases ih (page + 1) pr hpr with ⟨q, ct', hq, he⟩
      exact ⟨q, ct', by omega, he⟩
    | reqError m =>
      rw [hres] at hpr
      rcases ih (page + 1) pr hpr with ⟨q, ct', hq, he⟩
      exact ⟨q, ct', by omega, he⟩

lemma okPairs_pairwise (env : Env) (dir : String) :
    ∀ (urls : List String) (page : Nat),
      (okPairs env dir urls page).Pairwise (fun a b => a.1 ≠ b.1) := by
  intro urls
  induction urls with
  | nil =>
    intro page
    simp [okPairs]
  | cons u rest ih =>
    intro page
    rw [okPairs]
    cases hres : env.pageResp page u with
    | ok ct body =>
      refine List.pairwise_cons.mpr ⟨?_, ih (page + 1)⟩
      intro pr hpr he
      rcases okPairs_key_bound env dir rest (page + 1) pr hpr with ⟨q, ct', hq, hp⟩
      rw [hp] at he
      have := pagePath_inj he
      omega
    | timeout => exact ih (page + 1)
    | reqError m => exact ih (page + 1)

lemma okPairs_all_fail (env : Env) (dir : String) :
    ∀ (urls : List String) (page : Nat),
      (∀ k, k < urls.length → (env.pageResp (page + k) (urls.getD k "")).isOk = false) →
      okPairs env dir urls page = [] := by
  intro urls
  induction urls with
  | nil => intro page _; rfl
  | cons u rest ih =>
    intro page h
    rw [okPairs]
    have h0 := h 0 (by simp)
    cases hres : env.pageResp page u with
    | ok ct body =>
      rw [Nat.add_zero] at h0
      simp [List.getD] at h0
      rw [hres] at h0
      simp [PageOutcome.isOk] at h0
    | timeout =>
      exact ih (page + 1) (fun k hk => by
        have := h (k + 1) (by simpa using Nat.succ_lt_succ hk)
        rw [show page + (k + 1) = page + 1 + k by omega] at this
        simpa using this)
    | reqError m =>
      exact ih (page + 1) (fun k hk => by
        have := h (k + 1) (by simpa using Nat.succ_lt_succ hk)
        rw [show page + (k + 1) = page + 1 + k by omega] at this
        simpa using this)

lemma okPairs_pos_of_ok (env : Env) (dir : String) :
    ∀ (urls : List String) (page k : Nat), k < urls.length →
      (env.pageResp (page + k) (urls.getD k "")).isOk = true →
      0 < (okPairs env dir urls page).length := by
  intro urls
  induction urls with
  | nil =>
    intro page k hk
    simp at hk
  | cons u rest ih =>
    intro page k hk hok
    rw [okPairs]
    cases hres : env.pageResp page u with
    | ok ct body => simp
    | timeout =>
      match k with
      | 0 =>
        rw [Nat.add_zero] at hok
        simp [List.getD] at hok
        rw [hres] at hok
        simp [PageOutcome.isOk] at hok
      | k + 1 =>
        refine ih (page + 1) k (by simpa using hk) ?_
        rw [show page + 1 + k = page + (k + 1) by omega]
        simpa using hok
    | reqError m =>
      match k with
      | 0 =>
        rw [Nat.add_zero] at hok
        simp [List.getD] at hok
        rw [hres] at hok
        simp [PageOutcome.isOk] at hok
      | k + 1 =>
        refine ih (page + 1) k (by simpa using hk) ?_
        rw [show page + 1 + k = page + (k + 1) by omega]
        simpa using hok

lemma okPairs_all_ok (env : Env) (dir : String) :
    ∀ (urls : List String) (page : Nat),
      (∀ k, k < urls.length → (env.pageResp (page + k) (urls.getD k "")).isOk = true) →
      (okPairs env dir urls page).map Prod.fst =
        (List.range urls.length).map (fun k =>
          ospJoin dir (pageFileName (page + k) (inferExt (pageCT env (page + k) (urls.getD k ""))))) := by
  intro urls
  induction urls with
  | nil =>
    intro page _
    rfl
  | cons u rest ih =>
    intro page h
    have h0 := h 0 (by simp)
    rw [Nat.add_zero] at h0
    simp only [List.getD_cons_zero] at h0
    rw [okPairs]
    cases hres : env.pageResp page u with
    | timeout => rw [hres] at h0; simp [PageOutcome.isOk] at h0
    | reqError m => rw [hres] at h0; simp [PageOutcome.isOk] at h0
    | ok ct body =>
      have hct : pageCT env page u = ct := by
        unfold pageCT
        rw [hres]
      rw [List.length_cons, List.range_succ_eq_map, List.map_cons, List.map_cons,
        List.map_map]
      simp only [Nat.add_zero, List.getD_cons_zero, hct]
      refine congrArg (fun l => _ :: l) ?_
      rw [ih (page + 1) (fun k hk => by
        have := h (k + 1) (by simpa using Nat.succ_lt_succ hk)
        rw [show page + (k + 1) = page + 1 + k by omega] at this
        simpa using this)]
      refine List.map_congr_left ?_
      intro k hk
      simp only [Function.comp_apply, List.getD_cons_succ]
      rw [show page + 1 + k = page + (k + 1) by omega]

/-! ### The download loop in closed form -/

lemma downloadPages_eq (env : Env) (dir : String) (total : Nat) :
    ∀ (urls : List String) (page : Nat) (st : St) (acc : List String),
      (∀ k, k < urls.length → ∀ ct body,
        env.pageResp (page + k) (urls.getD k "") = .ok ct body →
        env.writeErr (ospJoin dir (pageFileName (page + k) (inferExt ct))) = none) →
      downloadPages env dir total urls page st acc =
        ({ fs := writeAll st.fs (okPairs env dir urls page),
           out := st.out ++ loopOut env dir total urls page,
           err := st.err ++ loopErr env urls page,
           gets := st.gets ++ urls },
         .ok (acc ++ (okPairs env dir urls page).map Prod.fst)) := by
  intro urls
  induction urls with
  | nil =>
    intro page st acc _
    simp [downloadPages, okPairs, loopOut, loopErr, writeAll]
  | cons u rest ih =>
    intro page st acc h
    have hshift : ∀ k, k < rest.length → ∀ ct body,
        env.pageResp (page + 1 + k) (rest.getD k "") = .ok ct body →
        env.writeErr (ospJoin dir (pageFileName (page + 1 + k) (inferExt ct))) = none := by
      intro k hk ct body hok
      have := h (k + 1) (by simpa using Nat.succ_lt_succ hk) ct body
      rw [show page + (k + 1) = page + 1 + k by omega] at this
      simpa using this hok
    cases hres : env.pageResp page u with
    | timeout =>
      simp only [downloadPages, hres]
      rw [ih (page + 1) _ acc hshift]
      simp [okPairs, loopOut, loopErr, hres, List.append_assoc]
    | reqError m =>
      simp only [downloadPages, hres]
      rw [ih (page + 1) _ acc hshift]
      simp [okPairs, loopOut, loopErr, hres, List.append_assoc]
    | ok ct body =>
      have h0 := h 0 (by simp) ct body
      rw [Nat.add_zero] at h0
      simp only [List.getD_cons_zero] at h0
      simp only [downloadPages, hres, h0 hres]
      rw [ih (page + 1) _ (acc ++ [ospJoin dir (pageFileName page (inferExt ct))]) hshift]
      simp [okPairs, loopOut, loopErr, writeAll, hres, List.append_assoc]

lemma loopErr_mem_timeout (env : Env) :
    ∀ (urls : List String) (page k : Nat), k < urls.length →
      env.pageResp (page + k) (urls.getD k "") = .timeout →
      ("Timeout downloading page " ++ toString (page + k)) ∈ loopErr env urls page := by
  intro urls
  induction urls with
  | nil =>
    intro page k hk
    simp at hk
  | cons u rest ih =>
    intro page k hk hres
    rw [loopErr]
    match k with
    | 0 =>
      rw [Nat.add_zero] at hres ⊢
      simp only [List.getD_cons_zero] at hres
      rw [hres]
      exact List.mem_cons_self _ _
    | k + 1 =>
      simp only [List.getD_cons_succ] at hres
      have hm := ih (page + 1) k (by simpa using hk)
        (by rw [show page + 1 + k = page + (k + 1) by omega]; exact hres)
      rw [show page + 1 + k = page + (k + 1) by omega] at hm
      cases env.pageResp page u <;> simp [hm]

lemma loopErr_mem_reqError (env : Env) :
    ∀ (urls : List String) (page k : Nat) (m : String), k < urls.length →
      env.pageResp (page + k) (urls.getD k "") = .reqError m →
      ("Failed to download page " ++ toString (page + k) ++ ": " ++ m) ∈
        loopErr env urls page := by
  intro urls
  induction urls with
  | nil =>
    intro page k m hk
    simp at hk
  | cons u rest ih =>
    intro page k m hk hres
    rw [loopErr]
    match k with
    | 0 =>
      rw [Nat.add_zero] at hres ⊢
      simp only [List.getD_cons_zero] at hres
      rw [hres]
      exact List.mem_cons_self _ _
    | k + 1 =>
      simp only [List.getD_cons_succ] at hres
      have hm := ih (page + 1) k m (by simpa using hk)
        (by rw [show page + 1 + k = page + (k + 1) by omega]; exact hres)
      rw [show page + 1 + k = page + (k + 1) by omega] at hm
      cases env.pageResp page u <;> simp [hm]

/-! ### Group selection -/

lemma select_group_eq (c : String) (gs : List (String × String)) (st : St) :
    ∃ xo xe, select_group c gs st =
      ({ st with out := st.out ++ xo, err := st.err ++ xe }, selectGroupUrl gs) := by
  cases h1 : dictGet gs "1" with
  | some u =>
    by_cases hu : u = ""
    · cases gs with
      | nil => exact absurd h1 (by simp [dictGet])
      | cons g t =>
        cases g with
        | mk gk gu =>
          exact ⟨["Using first available group: " ++ gk],
            ["Group \x271\x27 (WeebCentral) not found for chapter " ++ c],
            by simp [select_group, selectGroupUrl, selectFallback, h1, hu]⟩
    · exact ⟨[], [], by simp [select_group, selectGroupUrl, selectFallback, h1, hu]⟩
  | none =>
    cases gs with
    | nil =>
      exact ⟨[], ["Group \x271\x27 (WeebCentral) not found for chapter " ++ c,
        "No groups found for chapter " ++ c],
        by simp [select_group, selectGroupUrl, selectFallback, h1]⟩
    | cons g t =>
      cases g with
      | mk gk gu =>
        exact ⟨["Using first available group: " ++ gk],
          ["Group \x271\x27 (WeebCentral) not found for chapter " ++ c],
          by simp [select_group, selectGroupUrl, selectFallback, h1]⟩

lemma selectGroupUrl_primary (gs : List (String × String)) (u : String)
    (h : dictGet gs "1" = some u) (hu : u ≠ "") : selectGroupUrl gs = some u := by
  simp [selectGroupUrl, h, hu]

lemma selectGroupUrl_fallback (gk gu : String) (t : List (String × String))
    (h : dictGet ((gk, gu) :: t) "1" = none ∨ dictGet ((gk, gu) :: t) "1" = some "") :
    selectGroupUrl ((gk, gu) :: t) = some gu := by
  unfold selectGroupUrl
  rcases h with h | h <;> simp [h, selectFallback]

lemma selectGroupUrl_nil : selectGroupUrl [] = none := rfl

lemma selectGroupUrl_inv (gs : List (String × String)) (u : String)
    (h : selectGroupUrl gs = some u) :
    (dictGet gs "1" = some u ∧ u ≠ "") ∨
    ((∃ gk t, gs = (gk, u) :: t) ∧
      (dictGet gs "1" = none ∨ dictGet gs "1" = some "")) := by
  cases h1 : dictGet gs "1" with
  | some v =>
    by_cases hv : v = ""
    · subst hv
      cases gs with
      | nil => exact absurd h1 (by simp [dictGet])
      | cons g t =>
        obtain ⟨gk, gu⟩ := g
        simp only [selectGroupUrl, h1, selectFallback, eq_self_iff_true, if_true,
          Option.some.injEq] at h
        subst h
        exact Or.inr ⟨⟨gk, t, rfl⟩, Or.inr rfl⟩
    · simp only [selectGroupUrl, h1, if_neg hv, Option.some.injEq] at h
      subst h
      exact Or.inl ⟨rfl, hv⟩
  | none =>
    simp only [selectGroupUrl, h1] at h
    cases gs with
    | nil => simp [selectFallback] at h
    | cons g t =>
      obtain ⟨gk, gu⟩ := g
      simp only [selectFallback, Option.some.injEq] at h
      subst h
      exact Or.inr ⟨⟨gk, t, rfl⟩, Or.inl rfl⟩

/-! ### Characterizing the body along the metadata happy path -/

lemma body_reaches_after_pages (env : Env) (s c o : String) (fs0 : Fs)
    (doc : SeriesDoc) (chs : List (String × ChapterRec)) (rec : ChapterRec)
    (gs : List (String × String)) (u : String) (det : ChapterDetails)
    (urls : List String)
    (hmk : env.makedirsErr o = none)
    (hser : env.seriesResp = .ok doc)
    (hch : doc.chapters = some chs)
    (hrec : dictGet chs c = some rec)
    (htr : rec.truthy = true)
    (hgr : rec.groups = some gs)
    (hsel : selectGroupUrl gs = some u)
    (hdet : env.detailsResp ("https://cubari.moe" ++ u) = .ok det)
    (hurls : imageUrlsOf det = some urls)
    (hne : urls ≠ [])
    (hmk2 : env.makedirsErr (chapter_dir s c o) = none) :
    ∃ xo xe,
      download_chapter_body env s c o fs0 =
        after_pages env c (chapter_dir s c o) urls.length urls
          { fs := (fs0.mkdir o).mkdir (chapter_dir s c o),
            out := xo, err := xe,
            gets := [series_url_of s, "https://cubari.moe" ++ u] } := by
  have hlen : ¬(urls.length = 0) := fun h => hne (List.length_eq_zero.mp h)
  rcases selectGroupUrl_inv gs u hsel with ⟨h1, hu⟩ | ⟨⟨gk, t, hgs⟩, h1⟩
  · simp only [download_chapter_body, fetch_pages_phase, select_group, hmk, hser, hch, hrec, htr,
      hgr, h1, if_neg hu, hdet, hurls, hlen, if_neg hlen, if_false, hmk2,
      Bool.true_eq_false]
    exact ⟨_, _, rfl⟩
  · subst hgs
    rcases h1 with h1 | h1 <;>
    · simp only [download_chapter_body, fetch_pages_phase, select_group, hmk, hser, hch, hrec, htr,
        hgr, h1, eq_self_iff_true, if_true, hdet, hurls, hlen, if_neg hlen,
        if_false, hmk2, Bool.true_eq_false]
      exact ⟨_, _, rfl⟩

lemma body_empty_pages (env : Env) (s c o : String) (fs0 : Fs)
    (doc : SeriesDoc) (chs : List (String × ChapterRec)) (rec : ChapterRec)
    (gs : List (String × String)) (u : String) (det : ChapterDetails)
    (hmk : env.makedirsErr o = none)
    (hser : env.seriesResp = .ok doc)
    (hch : doc.chapters = some chs)
    (hrec : dictGet chs c = some rec)
    (htr : rec.truthy = true)
    (hgr : rec.groups = some gs)
    (hsel : selectGroupUrl gs = some u)
    (hdet : env.detailsResp ("https://cubari.moe" ++ u) = .ok det)
    (hurls : imageUrlsOf det = some []) :
    ∃ xo xe,
      download_chapter_body env s c o fs0 =
        ({ fs := fs0.mkdir o, out := xo, err := xe,
           gets := [series_url_of s, "https://cubari.moe" ++ u] }, .ok none) ∧
      ("No pages found for chapter " ++ c) ∈ xo := by
  rcases selectGroupUrl_inv gs u hsel with ⟨h1, hu⟩ | ⟨⟨gk, t, hgs⟩, h1⟩
  · simp only [download_chapter_body, fetch_pages_phase, select_group, hmk, hser, hch, hrec, htr,
      hgr, h1, if_neg hu, hdet, hurls, List.length_nil, if_true,
      Bool.true_eq_false]
    refine ⟨_, _, rfl, ?_⟩
    simp
  · subst hgs
    rcases h1 with h1 | h1 <;>
    · simp only [download_chapter_body, fetch_pages_phase, select_group, hmk, hser, hch, hrec, htr,
        hgr, h1, eq_self_iff_true, hdet, hurls, List.length_nil, if_true,
        Bool.true_eq_false]
      refine ⟨_, _, rfl, ?_⟩
      simp

/-! ### The wrapper and the shape of results -/

lemma download_chapter_of_body_ok (env : Env) (s c o : String) (fs0 : Fs)
    (st : St) (r : Option String)
    (h : download_chapter_body env s c o fs0 = (st, .ok r)) :
    download_chapter env s c o fs0 = (st, r) := by
  unfold download_chapter
  rw [h]

lemma download_chapter_of_body_error (env : Env) (s c o : String) (fs0 : Fs)
    (st : St) (e : PyExn)
    (h : download_chapter_body env s c o fs0 = (st, .error e)) :
    download_chapter env s c o fs0 =
      ({ st with err := st.err ++ [excMessage e] }, none) := by
  unfold download_chapter
  rw [h]
  cases e <;> rfl

lemma download_chapter_st (env : Env) (s c o : String) (fs0 : Fs) :
    ∃ xe, (download_chapter env s c o fs0).1 =
      { (download_chapter_body env s c o fs0).1 with
        err := (download_chapter_body env s c o fs0).1.err ++ xe } := by
  unfold download_chapter
  rcases hb : download_chapter_body env s c o fs0 with ⟨st, r⟩
  cases r with
  | ok r => exact ⟨[], by simp⟩
  | error e =>
    cases e with
    | reqExn m => exact ⟨["Network error occurred: " ++ m], by simp⟩
    | keyError k =>
      exact ⟨["Data structure error: Missing key \x27" ++ k ++ "\x27"], by simp⟩
    | osError m => exact ⟨["Unexpected error: " ++ m], by simp⟩

lemma fetch_pages_some (env : Env) (s c o gu : String) (st0 st : St) (p : String)
    (h : fetch_pages_phase env s c o gu st0 = (st, .ok (some p))) :
    p = chapter_dir s c o := by
  unfold fetch_pages_phase after_pages at h
  dsimp only at h
  repeat' split at h
  all_goals simp_all

lemma body_some (env : Env) (s c o : String) (fs0 : Fs) (st : St) (p : String)
    (h : download_chapter_body env s c o fs0 = (st, .ok (some p))) :
    p = chapter_dir s c o := by
  unfold download_chapter_body at h
  dsimp only at h
  repeat' split at h
  all_goals first
    | (simp_all; done)
    | exact fetch_pages_some env s c o _ _ st p h

lemma download_chapter_some (env : Env) (s c o : String) (fs0 : Fs) (p : String)
    (h : (download_chapter env s c o fs0).2 = some p) :
    p = chapter_dir s c o := by
  unfold download_chapter at h
  rcases hb : download_chapter_body env s c o fs0 with ⟨st, r⟩
  rw [hb] at h
  cases r with
  | ok r =>
    simp only at h
    rw [h] at hb
    exact body_some env s c o fs0 st p hb
  | error e => cases e <;> simp at h

/-! ### Request traces only grow -/

lemma downloadPages_gets_grow (env : Env) (dir : String) (total : Nat) :
    ∀ (urls : List String) (page : Nat) (st : St) (acc : List String),
      ∃ l, (downloadPages env dir total urls page st acc).1.gets = st.gets ++ l := by
  intro urls
  induction urls with
  | nil =>
    intro page st acc
    exact ⟨[], by simp [downloadPages]⟩
  | cons u rest ih =>
    intro page st acc
    cases hres : env.pageResp page u with
    | timeout =>
      obtain ⟨l, hl⟩ := ih (page + 1) { st with
          out := st.out ++ ["Downloading page " ++ toString page ++ "/" ++
            toString total ++ " from " ++ u ++ "..."],
          err := st.err ++ ["Timeout downloading page " ++ toString page],
          gets := st.gets ++ [u] } acc
      refine ⟨[u] ++ l, ?_⟩
      simp only [downloadPages, hres]
      rw [hl]
      simp
    | reqError m =>
      obtain ⟨l, hl⟩ := ih (page + 1) { st with
          out := st.out ++ ["Downloading page " ++ toString page ++ "/" ++
            toString total ++ " from " ++ u ++ "..."],
          err := st.err ++ ["Failed to download page " ++ toString page ++ ": " ++ m],
          gets := st.gets ++ [u] } acc
      refine ⟨[u] ++ l, ?_⟩
      simp only [downloadPages, hres]
      rw [hl]
      simp
    | ok ct body =>
      cases hw : env.writeErr (ospJoin dir (pageFileName page (inferExt ct))) with
      | some m =>
        refine ⟨[u], ?_⟩
        simp [downloadPages, hres, hw]
      | none =>
        obtain ⟨l, hl⟩ := ih (page + 1) { st with
            fs := st.fs.write (ospJoin dir (pageFileName page (inferExt ct))) body,
            out := st.out ++ ["Downloading page " ++ toString page ++ "/" ++
              toString total ++ " from " ++ u ++ "..."] ++
              ["Saved page " ++ toString page ++ " to " ++
                ospJoin dir (pageFileName page (inferExt ct))],
            gets := st.gets ++ [u] }
            (acc ++ [ospJoin dir (pageFileName page (inferExt ct))])
        refine ⟨[u] ++ l, ?_⟩
        simp only [downloadPages, hres, hw]
        rw [hl]
        simp

lemma after_pages_gets_grow (env : Env) (c dir : String) (total : Nat)
    (urls : List String) (st : St) :
    ∃ l, (after_pages env c dir total urls st).1.gets = st.gets ++ l := by
  unfold after_pages
  obtain ⟨l, hl⟩ := downloadPages_gets_grow env dir total urls 1 st []
  rcases hdp : downloadPages env dir total urls 1 st [] with ⟨st2, r⟩
  rw [hdp] at hl
  cases r with
  | error e => exact ⟨l, hl⟩
  | ok files =>
    dsimp only
    split
    · exact ⟨l, hl⟩
    · cases henv : env.rmdirErr dir <;> exact ⟨l, hl⟩

lemma body_reaches_fetch (env : Env) (s c o : String) (fs0 : Fs)
    (doc : SeriesDoc) (chs : List (String × ChapterRec)) (rec : ChapterRec)
    (gs : List (String × String)) (u : String)
    (hmk : env.makedirsErr o = none)
    (hser : env.seriesResp = .ok doc)
    (hch : doc.chapters = some chs)
    (hrec : dictGet chs c = some rec)
    (htr : rec.truthy = true)
    (hgr : rec.groups = some gs)
    (hsel : selectGroupUrl gs = some u) :
    ∃ st1 : St, download_chapter_body env s c o fs0 =
      fetch_pages_phase env s c o u st1 ∧ st1.gets = [series_url_of s] := by
  rcases selectGroupUrl_inv gs u hsel with ⟨h1, hu⟩ | ⟨⟨gk, t, hgs⟩, h1⟩
  · simp only [download_chapter_body, select_group, hmk, hser, hch, hrec, htr,
      hgr, h1, if_neg hu, Bool.true_eq_false]
    exact ⟨_, rfl, rfl⟩
  · subst hgs
    rcases h1 with h1 | h1 <;>
    · simp only [download_chapter_body, select_group, hmk, hser, hch, hrec, htr,
        hgr, h1, eq_self_iff_true, if_true, Bool.true_eq_false]
      exact ⟨_, rfl, rfl⟩

lemma fetch_pages_gets (env : Env) (s c o gu : String) (st0 : St) :
    ∃ l, (fetch_pages_phase env s c o gu st0).1.gets =
      st0.gets ++ ["https://cubari.moe" ++ gu] ++ l := by
  cases hd : env.detailsResp ("https://cubari.moe" ++ gu) with
  | error m => exact ⟨[], by simp [fetch_pages_phase, hd]⟩
  | ok det =>
    cases hurls : imageUrlsOf det with
    | none => exact ⟨[], by simp [fetch_pages_phase, hd, hurls]⟩
    | some urls =>
      by_cases hz : urls.length = 0
      · exact ⟨[], by simp [fetch_pages_phase, hd, hurls, hz]⟩
      · cases hmk : env.makedirsErr (chapter_dir s c o) with
        | some m => exact ⟨[], by simp [fetch_pages_phase, hd, hurls, hz, hmk]⟩
        | none =>
          obtain ⟨t, ht⟩ := after_pages_gets_grow env c (chapter_dir s c o)
            urls.length urls { st0 with
              fs := st0.fs.mkdir (chapter_dir s c o),
              out := st0.out ++
                ["Fetching chapter details from: " ++ ("https://cubari.moe" ++ gu)] ++
                ["Successfully fetched chapter details."] ++
                ["Found " ++ toString urls.length ++ " pages for chapter " ++ c ++ "."] ++
                ["Output directory: " ++ chapter_dir s c o],
              gets := st0.gets ++ ["https://cubari.moe" ++ gu] }
          refine ⟨t, ?_⟩
          simp only [fetch_pages_phase, hd, hurls, if_neg hz, hmk]
          rw [ht]

/-! ### Claim theorems -/

/-- C8: for every input and every behaviour of the network and filesystem,
`download_chapter` never lets an exception propagate to its caller: every
exception the body can raise (`requests` errors, `KeyError`, `OSError` —
all `Exception` subclasses, caught by the handler chain of lines 116-124)
is reported to the error stream and converted into the failure return
value `None`. -/
theorem c8_no_exception_escapes (env : Env) (s c o : String) (fs0 : Fs)
    (st : St) (e : PyExn)
    (h : download_chapter_body env s c o fs0 = (st, .error e)) :
    download_chapter env s c o fs0 =
      ({ st with err := st.err ++ [excMessage e] }, none) :=
  download_chapter_of_body_error env s c o fs0 st e h

/-- Witness for C8: a failing series fetch raises a `requests` error; the
wrapper reports it on stderr and returns `None`. -/
theorem c8_witness :
    download_chapter_body envSeriesErr "s" "1" "o" ⟨[], []⟩ =
      ({ fs := ⟨["o"], []⟩,
         out := ["Fetching series data from: " ++ series_url_of "s"],
         err := [], gets := [series_url_of "s"] },
       .error (.reqExn "Connection refused")) ∧
    download_chapter envSeriesErr "s" "1" "o" ⟨[], []⟩ =
      ({ fs := ⟨["o"], []⟩,
         out := ["Fetching series data from: " ++ series_url_of "s"],
         err := ["Network error occurred: Connection refused"],
         gets := [series_url_of "s"] }, none) := by
  constructor
  · rfl
  · exact c8_no_exception_escapes envSeriesErr "s" "1" "o" ⟨[], []⟩ _ _ rfl

/-- C9: the CLI entry point exits 0 iff `download_chapter` returned a path
(the returned chapter directory is never the empty string, so Python
truthiness of the result agrees with it being non-`None`); on success
stdout includes the line `DOWNLOAD_PATH:<path>`; otherwise the exit code
is 1. -/
theorem c9_cli_exit_code (env : Env) (s c o : String) (fs0 : Fs) :
    ((main_run env s c o fs0).2 = 0 ↔
      (download_chapter env s c o fs0).2 ≠ none) ∧
    (∀ p, (download_chapter env s c o fs0).2 = some p →
      ("DOWNLOAD_PATH:" ++ p) ∈ (main_run env s c o fs0).1.out) ∧
    ((main_run env s c o fs0).2 = 0 ∨ (main_run env s c o fs0).2 = 1) := by
  unfold main_run
  rcases hr : download_chapter env s c o fs0 with ⟨st, r⟩
  cases r with
  | none =>
    dsimp only
    refine ⟨by simp, ?_, Or.inr rfl⟩
    intro p hp
    simp at hp
  | some p =>
    have hp : p = chapter_dir s c o :=
      download_chapter_some env s c o fs0 p (by rw [hr])
    have hne : ¬(p = "") := hp ▸ chapter_dir_ne_nil s c o
    dsimp only
    rw [if_neg hne]
    refine ⟨by simp, ?_, Or.inl rfl⟩
    intro q hq
    simp only [Option.some.injEq] at hq
    subst hq
    simp

/-- Witness for C9 (the iff and disjunction have no hypotheses; the stdout
clause does): on the happy-path environment the exit code is 0 and stdout
carries the `DOWNLOAD_PATH:` line. -/
theorem c9_witness :
    (main_run envHappy "s" "1" "o" ⟨[], []⟩).2 = 0 ∧
    ("DOWNLOAD_PATH:" ++ "o/s_Chapter_1") ∈ (main_run envHappy "s" "1" "o" ⟨[], []⟩).1.out := by
  have h := c9_cli_exit_code envHappy "s" "1" "o" ⟨[], []⟩
  constructor
  · exact h.1.mpr (by decide)
  · exact h.2.1 "o/s_Chapter_1" (by decide)

/-- C7: for every chapter whose page-list document yields zero page URLs,
`download_chapter` reports failure (returns `None`) and no chapter-specific
directory is created or persists: the filesystem after the run is exactly
the initial one with the base output directory ensured. -/
theorem c7_empty_page_list (env : Env) (s c o : String) (fs0 : Fs)
    (doc : SeriesDoc) (chs : List (String × ChapterRec)) (rec : ChapterRec)
    (gs : List (String × String)) (u : String) (det : ChapterDetails)
    (hmk : env.makedirsErr o = none)
    (hser : env.seriesResp = .ok doc)
    (hch : doc.chapters = some chs)
    (hrec : dictGet chs c = some rec)
    (htr : rec.truthy = true)
    (hgr : rec.groups = some gs)
    (hsel : selectGroupUrl gs = some u)
    (hdet : env.detailsResp ("https://cubari.moe" ++ u) = .ok det)
    (hurls : imageUrlsOf det = some [])
    (hdirs : chapter_dir s c o ∉ fs0.dirs) :
    (download_chapter env s c o fs0).2 = none ∧
    (download_chapter env s c o fs0).1.fs = fs0.mkdir o ∧
    chapter_dir s c o ∉ (download_chapter env s c o fs0).1.fs.dirs := by
  obtain ⟨xo, xe, hbody, -⟩ := body_empty_pages env s c o fs0 doc chs rec gs u det
    hmk hser hch hrec htr hgr hsel hdet hurls
  rw [download_chapter_of_body_ok env s c o fs0 _ none hbody]
  refine ⟨rfl, rfl, ?_⟩
  intro hmem
  rcases (Fs.mem_mkdir_dirs fs0 o (chapter_dir s c o)).mp hmem with h | h
  · exact hdirs h
  · exact chapter_dir_ne_output s c o h

/-- Witness for C7: an empty page-list document on the happy metadata path
yields `None` and leaves only the output directory. -/
theorem c7_witness :
    (download_chapter envEmptyPages "s" "1" "o" ⟨[], []⟩).2 = none ∧
    (download_chapter envEmptyPages "s" "1" "o" ⟨[], []⟩).1.fs = Fs.mkdir ⟨[], []⟩ "o" ∧
    chapter_dir "s" "1" "o" ∉ (download_chapter envEmptyPages "s" "1" "o" ⟨[], []⟩).1.fs.dirs :=
  c7_empty_page_list envEmptyPages "s" "1" "o" ⟨[], []⟩ sampleDoc
    [("1", ⟨some [("1", "/g")], false⟩)] ⟨some [("1", "/g")], false⟩
    [("1", "/g")] "/g" (.jlist []) rfl rfl rfl (by decide) (by decide) rfl
    (by decide) rfl rfl (by decide)

/-- C10: a page-list document that decodes to a mapping lacking the
`pages` key is treated as an empty page list, not as a malformed-shape
error: the run reports failure without creating a chapter directory and
prints the "No pages found" message of the zero-page path. -/
theorem c10_missing_pages_key (env : Env) (s c o : String) (fs0 : Fs)
    (doc : SeriesDoc) (chs : List (String × ChapterRec)) (rec : ChapterRec)
    (gs : List (String × String)) (u : String)
    (hmk : env.makedirsErr o = none)
    (hser : env.seriesResp = .ok doc)
    (hch : doc.chapters = some chs)
    (hrec : dictGet chs c = some rec)
    (htr : rec.truthy = true)
    (hgr : rec.groups = some gs)
    (hsel : selectGroupUrl gs = some u)
    (hdet : env.detailsResp ("https://cubari.moe" ++ u) = .ok (.jdict none))
    (hdirs : chapter_dir s c o ∉ fs0.dirs) :
    (download_chapter env s c o fs0).2 = none ∧
    (download_chapter env s c o fs0).1.fs = fs0.mkdir o ∧
    chapter_dir s c o ∉ (download_chapter env s c o fs0).1.fs.dirs ∧
    ("No pages found for chapter " ++ c) ∈ (download_chapter env s c o fs0).1.out := by
  obtain ⟨xo, xe, hbody, hmem⟩ := body_empty_pages env s c o fs0 doc chs rec gs u
    (.jdict none) hmk hser hch hrec htr hgr hsel hdet rfl
  rw [download_chapter_of_body_ok env s c o fs0 _ none hbody]
  refine ⟨rfl, rfl, ?_, hmem⟩
  intro hm
  rcases (Fs.mem_mkdir_dirs fs0 o (chapter_dir s c o)).mp hm with h | h
  · exact hdirs h
  · exact chapter_dir_ne_output s c o h

/-- Witness for C10: a `pages`-less object document yields `None`, no
chapter directory, and the zero-page stdout message. -/
theorem c10_witness :
    (download_chapter envNoPagesKey "s" "1" "o" ⟨[], []⟩).2 = none ∧
    (download_chapter envNoPagesKey "s" "1" "o" ⟨[], []⟩).1.fs = Fs.mkdir ⟨[], []⟩ "o" ∧
    chapter_dir "s" "1" "o" ∉ (download_chapter envNoPagesKey "s" "1" "o" ⟨[], []⟩).1.fs.dirs ∧
    ("No pages found for chapter " ++ "1") ∈ (download_chapter envNoPagesKey "s" "1" "o" ⟨[], []⟩).1.out :=
  c10_missing_pages_key envNoPagesKey "s" "1" "o" ⟨[], []⟩ sampleDoc
    [("1", ⟨some [("1", "/g")], false⟩)] ⟨some [("1", "/g")], false⟩
    [("1", "/g")] "/g" rfl rfl rfl (by decide) (by decide) rfl (by decide)
    rfl (by decide)

/-- Counterexample to C6 as stated: a run with a non-empty page list and
zero successful page downloads in which `os.rmdir` is never attempted.
The only page fetches fine but its file write raises `OSError`, which the
per-page handlers (requests exceptions only, lines 97-100) do not catch:
the loop aborts into the catch-all, the run returns `None` with zero files
saved, the empty chapter directory persists even though removal would have
succeeded, stderr carries only the catch-all report (no zero-pages
message, no removal-failure message), and no removal is printed. -/
theorem c6_counterexample :
    (download_chapter envWriteFailNoPages "s" "1" "o" ⟨[], []⟩).2 = none ∧
    (download_chapter envWriteFailNoPages "s" "1" "o" ⟨[], []⟩).1.fs.files = [] ∧
    envWriteFailNoPages.rmdirErr "o/s_Chapter_1" = none ∧
    "o/s_Chapter_1" ∈ (download_chapter envWriteFailNoPages "s" "1" "o" ⟨[], []⟩).1.fs.dirs ∧
    (download_chapter envWriteFailNoPages "s" "1" "o" ⟨[], []⟩).1.err =
      ["Unexpected error: No space left on device"] ∧
    ("Removed empty directory: " ++ "o/s_Chapter_1") ∉
      (download_chapter envWriteFailNoPages "s" "1" "o" ⟨[], []⟩).1.out := by
  exact ⟨by decide, by decide, rfl, by decide, by decide, by decide⟩

/-- C6 amended: for every run whose page list is non-empty and in which
every per-page request fails (timeout or HTTP/request error, so the loop
completes with zero pages downloaded), `download_chapter` attempts to
remove the (now empty) chapter directory and returns the failure
indicator; the removal is best-effort: when `os.rmdir` succeeds the
directory is gone and its removal is printed, and when it raises the error
is logged on stderr and the run still just returns `None`.  (A
zero-success run caused by a file-write `OSError` instead aborts through
the catch-all without attempting removal.) -/
theorem c6_zero_success_cleanup (env : Env) (s c o : String) (fs0 : Fs)
    (doc : SeriesDoc) (chs : List (String × ChapterRec)) (rec : ChapterRec)
    (gs : List (String × String)) (u : String) (det : ChapterDetails)
    (urls : List String)
    (hmk : env.makedirsErr o = none)
    (hser : env.seriesResp = .ok doc)
    (hch : doc.chapters = some chs)
    (hrec : dictGet chs c = some rec)
    (htr : rec.truthy = true)
    (hgr : rec.groups = some gs)
    (hsel : selectGroupUrl gs = some u)
    (hdet : env.detailsResp ("https://cubari.moe" ++ u) = .ok det)
    (hurls : imageUrlsOf det = some urls)
    (hne : urls ≠ [])
    (hfail : ∀ k, k < urls.length →
      (env.pageResp (k + 1) (urls.getD k "")).isOk = false)
    (hmk2 : env.makedirsErr (chapter_dir s c o) = none) :
    (download_chapter env s c o fs0).2 = none ∧
    (env.rmdirErr (chapter_dir s c o) = none →
      chapter_dir s c o ∉ (download_chapter env s c o fs0).1.fs.dirs ∧
      ("Removed empty directory: " ++ chapter_dir s c o) ∈
        (download_chapter env s c o fs0).1.out) ∧
    (∀ m, env.rmdirErr (chapter_dir s c o) = some m →
      ("Could not remove directory " ++ chapter_dir s c o ++ ": " ++ m) ∈
        (download_chapter env s c o fs0).1.err) := by
  obtain ⟨xo, xe, hbody⟩ := body_reaches_after_pages env s c o fs0 doc chs rec
    gs u det urls hmk hser hch hrec htr hgr hsel hdet hurls hne hmk2
  have H : ∀ k, k < urls.length → ∀ ct body,
      env.pageResp (1 + k) (urls.getD k "") = .ok ct body →
      env.writeErr (ospJoin (chapter_dir s c o)
        (pageFileName (1 + k) (inferExt ct))) = none := by
    intro k hk ct body hok
    have hf := hfail k hk
    rw [show k + 1 = 1 + k by omega, hok] at hf
    simp [PageOutcome.isOk] at hf
  have hpairs : okPairs env (chapter_dir s c o) urls 1 = [] :=
    okPairs_all_fail env (chapter_dir s c o) urls 1 (fun k hk => by
      rw [show 1 + k = k + 1 by omega]
      exact hfail k hk)
  have hloop := downloadPages_eq env (chapter_dir s c o) urls.length urls 1
    { fs := (fs0.mkdir o).mkdir (chapter_dir s c o), out := xo, err := xe,
      gets := [series_url_of s, "https://cubari.moe" ++ u] } [] H
  unfold after_pages at hbody
  rw [hloop, hpairs] at hbody
  simp only [List.map_nil, List.nil_append, List.length_nil, writeAll,
    gt_iff_lt, Nat.lt_irrefl, if_false] at hbody
  cases hrm : env.rmdirErr (chapter_dir s c o) with
  | none =>
    simp only [hrm] at hbody
    rw [download_chapter_of_body_ok env s c o fs0 _ none hbody]
    refine ⟨rfl, fun _ => ⟨?_, ?_⟩, ?_⟩
    · intro hm
      exact ((Fs.mem_rmdir_dirs _ _ _).mp hm).2 rfl
    · simp
    · intro m hm
      simp at hm
  | some m =>
    simp only [hrm] at hbody
    rw [download_chapter_of_body_ok env s c o fs0 _ none hbody]
    refine ⟨rfl, ?_, ?_⟩
    · intro hr0
      simp at hr0
    · intro m2 hm2
      simp only [Option.some.injEq] at hm2
      subst hm2
      simp

/-- Witness for C6: one page that times out; with `os.rmdir` succeeding the
chapter directory is removed and failure is returned. -/
theorem c6_witness :
    (download_chapter envAllFailRmOk "s" "1" "o" ⟨[], []⟩).2 = none ∧
    chapter_dir "s" "1" "o" ∉ (download_chapter envAllFailRmOk "s" "1" "o" ⟨[], []⟩).1.fs.dirs ∧
    ("Removed empty directory: " ++ chapter_dir "s" "1" "o") ∈
      (download_chapter envAllFailRmOk "s" "1" "o" ⟨[], []⟩).1.out := by
  have h := c6_zero_success_cleanup envAllFailRmOk "s" "1" "o" ⟨[], []⟩ sampleDoc
    [("1", ⟨some [("1", "/g")], false⟩)] ⟨some [("1", "/g")], false⟩
    [("1", "/g")] "/g" (.jlist ["u1"]) ["u1"] rfl rfl rfl (by decide)
    (by decide) rfl (by decide) rfl rfl (by decide) (by decide) rfl
  exact ⟨h.1, (h.2.1 rfl).1, (h.2.1 rfl).2⟩

/-- Counterexample to C4 as stated: in a chapter whose group mapping is
`{"2": "/b", "1": ""}` the designated primary key `"1"` is present (with
URL `""`), yet the page-list URL actually fetched is the fallback
`https://cubari.moe/b` and the primary URL `https://cubari.moe` is never
requested — the code tests Python truthiness of the URL, not presence of
the key. -/
theorem c4_counterexample :
    dictGet [("2", "/b"), ("1", "")] "1" = some "" ∧
    (download_chapter envEmptyPrimary "s" "1" "o" ⟨[], []⟩).1.gets =
      [series_url_of "s", "https://cubari.moe" ++ "/b"] ∧
    ("https://cubari.moe" ++ "") ∉
      (download_chapter envEmptyPrimary "s" "1" "o" ⟨[], []⟩).1.gets := by
  exact ⟨by decide, by decide, by decide⟩

/-- C4 amended: `download_chapter` selects the page-list URL of the primary
group key `"1"` when that key is present with a non-empty URL; when the key
is absent or its URL is empty, it falls back to the URL of the first group key;
when the group mapping is empty it reports failure without fetching any
page-list document (the only request made is the series fetch); and
whenever a URL `u` is selected, the second request of the run is
`https://cubari.moe<u>`. -/
theorem c4_amended :
    (∀ (gs : List (String × String)) (u : String),
      dictGet gs "1" = some u → u ≠ "" → selectGroupUrl gs = some u) ∧
    (∀ (gk gu : String) (t : List (String × String)),
      (dictGet ((gk, gu) :: t) "1" = none ∨ dictGet ((gk, gu) :: t) "1" = some "") →
      selectGroupUrl ((gk, gu) :: t) = some gu) ∧
    (∀ (env : Env) (s c o : String) (fs0 : Fs) (doc : SeriesDoc)
      (chs : List (String × ChapterRec)) (rec : ChapterRec),
      env.makedirsErr o = none → env.seriesResp = .ok doc →
      doc.chapters = some chs → dictGet chs c = some rec →
      rec.truthy = true → rec.groups = some [] →
      (download_chapter env s c o fs0).2 = none ∧
      (download_chapter env s c o fs0).1.gets = [series_url_of s]) ∧
    (∀ (env : Env) (s c o : String) (fs0 : Fs) (doc : SeriesDoc)
      (chs : List (String × ChapterRec)) (rec : ChapterRec)
      (gs : List (String × String)) (u : String),
      env.makedirsErr o = none → env.seriesResp = .ok doc →
      doc.chapters = some chs → dictGet chs c = some rec →
      rec.truthy = true → rec.groups = some gs →
      selectGroupUrl gs = some u →
      ∃ l, (download_chapter env s c o fs0).1.gets =
        [series_url_of s, "https://cubari.moe" ++ u] ++ l) := by
  refine ⟨selectGroupUrl_primary, ?_, ?_, ?_⟩
  · intro gk gu t h
    exact selectGroupUrl_fallback gk gu t h
  · intro env s c o fs0 doc chs rec hmk hser hch hrec htr hgr
    have hbody : download_chapter_body env s c o fs0 =
        ({ fs := fs0.mkdir o,
           out := ["Fetching series data from: " ++ series_url_of s,
             "Successfully fetched series data."],
           err := ["Group \x271\x27 (WeebCentral) not found for chapter " ++ c,
             "No groups found for chapter " ++ c],
           gets := [series_url_of s] }, .ok none) := by
      simp [download_chapter_body, select_group, hmk, hser, hch, hrec, htr,
        hgr, show dictGet ([] : List (String × String)) "1" = none from rfl]
    rw [download_chapter_of_body_ok env s c o fs0 _ none hbody]
    exact ⟨rfl, rfl⟩
  · intro env s c o fs0 doc chs rec gs u hmk hser hch hrec htr hgr hsel
    obtain ⟨st1, hbody, hgets⟩ := body_reaches_fetch env s c o fs0 doc chs rec
      gs u hmk hser hch hrec htr hgr hsel
    obtain ⟨l, hl⟩ := fetch_pages_gets env s c o u st1
    obtain ⟨xe, hst⟩ := download_chapter_st env s c o fs0
    refine ⟨l, ?_⟩
    have h1 : (download_chapter env s c o fs0).1.gets =
        (download_chapter_body env s c o fs0).1.gets := by rw [hst]
    rw [h1, hbody, hl, hgets]
    simp

/-- Witness for C4 amended: the four clauses at concrete inputs — a
present non-empty primary, an empty-URL primary falling back, an empty
group mapping failing with only the series request, and the selected URL
driving the page-list request. -/
theorem c4_witness :
    selectGroupUrl [("1", "/g")] = some "/g" ∧
    selectGroupUrl [("2", "/b"), ("1", "")] = some "/b" ∧
    ((download_chapter envNoGroups "s" "1" "o" ⟨[], []⟩).2 = none ∧
      (download_chapter envNoGroups "s" "1" "o" ⟨[], []⟩).1.gets = [series_url_of "s"]) ∧
    (∃ l, (download_chapter envHappy "s" "1" "o" ⟨[], []⟩).1.gets =
      [series_url_of "s", "https://cubari.moe" ++ "/g"] ++ l) := by
  have h := c4_amended
  exact ⟨h.1 [("1", "/g")] "/g" (by decide) (by decide),
    h.2.1 "2" "/b" [("1", "")] (Or.inr (by decide)),
    h.2.2.1 envNoGroups "s" "1" "o" ⟨[], []⟩ ⟨some [("1", ⟨some [], true⟩)]⟩
      [("1", ⟨some [], true⟩)] ⟨some [], true⟩ rfl rfl rfl (by decide)
      (by decide) rfl,
    h.2.2.2 envHappy "s" "1" "o" ⟨[], []⟩ sampleDoc
      [("1", ⟨some [("1", "/g")], false⟩)] ⟨some [("1", "/g")], false⟩
      [("1", "/g")] "/g" rfl rfl rfl (by decide) (by decide) rfl (by decide)⟩

/-- Counterexample to C5 as stated: for a response whose content-type is
`"jpgpng"` — which contains `png` — the png-clause of the claim demands the
extension `png`, but the run saves the page as `page_001.jpg`: the checks
are an ordered chain and jpeg/jpg wins. -/
theorem c5_counterexample :
    strContains "jpgpng" "png" = true ∧
    (download_chapter envJpgPng "s" "1" "o" ⟨[], []⟩).1.fs.files.map Prod.fst =
      ["o/s_Chapter_1/page_001.jpg"] ∧
    inferExt (some "jpgpng") = "jpg" := by
  exact ⟨by decide, by decide, by decide⟩

/-- C5 amended: the extension is inferred from the content-type by an
ordered chain — jpeg/jpg first, then png, then webp, then gif — so a
content-type matching several patterns gets the first matching extension;
an unrecognized or missing (or empty) content-type gives the default
`png`. -/
theorem c5_amended :
    inferExt none = "png" ∧
    (∀ ct : String, strContains ct "jpeg" = true ∨ strContains ct "jpg" = true →
      inferExt (some ct) = "jpg") ∧
    (∀ ct : String, strContains ct "jpeg" = false → strContains ct "jpg" = false →
      strContains ct "png" = true → inferExt (some ct) = "png") ∧
    (∀ ct : String, strContains ct "jpeg" = false → strContains ct "jpg" = false →
      strContains ct "png" = false → strContains ct "webp" = true →
      inferExt (some ct) = "webp") ∧
    (∀ ct : String, strContains ct "jpeg" = false → strContains ct "jpg" = false →
      strContains ct "png" = false → strContains ct "webp" = false →
      strContains ct "gif" = true → inferExt (some ct) = "gif") ∧
    (∀ ct : String, strContains ct "jpeg" = false → strContains ct "jpg" = false →
      strContains ct "png" = false → strContains ct "webp" = false →
      strContains ct "gif" = false → inferExt (some ct) = "png") := by
  refine ⟨rfl, ?_, ?_, ?_, ?_, ?_⟩
  · intro ct h
    by_cases hs : ct = ""
    · subst hs
      rcases h with h | h <;> exact absurd h (by decide)
    · rcases h with h | h <;> simp [inferExt, hs, h]
  · intro ct h1 h2 h3
    by_cases hs : ct = ""
    · subst hs
      exact absurd h3 (by decide)
    · simp [inferExt, hs, h1, h2, h3]
  · intro ct h1 h2 h3 h4
    by_cases hs : ct = ""
    · subst hs
      exact absurd h4 (by decide)
    · simp [inferExt, hs, h1, h2, h3, h4]
  · intro ct h1 h2 h3 h4 h5
    by_cases hs : ct = ""
    · subst hs
      exact absurd h5 (by decide)
    · simp [inferExt, hs, h1, h2, h3, h4, h5]
  · intro ct h1 h2 h3 h4 h5
    by_cases hs : ct = ""
    · subst hs
      rfl
    · simp [inferExt, hs, h1, h2, h3, h4, h5]

/-- Witness for C5 amended: concrete content-types through each clause. -/
theorem c5_witness :
    inferExt (some "image/webp") = "webp" ∧ inferExt none = "png" ∧
    inferExt (some "image/jpeg") = "jpg" ∧ inferExt (some "image/apng") = "png" ∧
    inferExt (some "image/gif") = "gif" ∧ inferExt (some "text/html") = "png" := by
  have h := c5_amended
  exact ⟨h.2.2.2.1 "image/webp" (by decide) (by decide) (by decide) (by decide),
    h.1,
    h.2.1 "image/jpeg" (Or.inl (by decide)),
    h.2.2.1 "image/apng" (by decide) (by decide) (by decide),
    h.2.2.2.2.1 "image/gif" (by decide) (by decide) (by decide) (by decide) (by decide),
    h.2.2.2.2.2 "text/html" (by decide) (by decide) (by decide) (by decide) (by decide)⟩

/-- Counterexample to C2 as stated: a run in which page 1 is downloaded and
saved, so at least one page download succeeds, yet the function returns
`None` — the write of page 2 raises `OSError`, which the per-page handlers
(`requests.Timeout`, `requests.RequestException`) do not catch, so it
aborts the loop and falls to the catch-all. -/
theorem c2_counterexample :
    ("o/s_Chapter_1/page_001.png", [7]) ∈
      (download_chapter envWriteFail "s" "1" "o" ⟨[], []⟩).1.fs.files ∧
    (download_chapter envWriteFail "s" "1" "o" ⟨[], []⟩).2 = none ∧
    ("Unexpected error: No space left on device") ∈
      (download_chapter envWriteFail "s" "1" "o" ⟨[], []⟩).1.err := by
  exact ⟨by decide, by decide, by decide⟩

/-- C2 amended: provided no file write raises (`OSError` aborts the run via
the catch-all), a run in which at least one page download succeeds returns
the chapter directory path even if other page downloads failed; every page
URL is requested (per-page timeout or HTTP/request failure never aborts the
remaining iterations) and each such failure is logged to stderr. -/
theorem c2_amended (env : Env) (s c o : String) (fs0 : Fs)
    (doc : SeriesDoc) (chs : List (String × ChapterRec)) (rec : ChapterRec)
    (gs : List (String × String)) (u : String) (det : ChapterDetails)
    (urls : List String)
    (hmk : env.makedirsErr o = none)
    (hser : env.seriesResp = .ok doc)
    (hch : doc.chapters = some chs)
    (hrec : dictGet chs c = some rec)
    (htr : rec.truthy = true)
    (hgr : rec.groups = some gs)
    (hsel : selectGroupUrl gs = some u)
    (hdet : env.detailsResp ("https://cubari.moe" ++ u) = .ok det)
    (hurls : imageUrlsOf det = some urls)
    (hmk2 : env.makedirsErr (chapter_dir s c o) = none)
    (hw : ∀ p, env.writeErr p = none)
    (k0 : Nat) (hk0 : k0 < urls.length)
    (hok0 : (env.pageResp (k0 + 1) (urls.getD k0 "")).isOk = true) :
    (download_chapter env s c o fs0).2 = some (chapter_dir s c o) ∧
    (download_chapter env s c o fs0).1.gets =
      [series_url_of s, "https://cubari.moe" ++ u] ++ urls ∧
    (∀ k, k < urls.length → env.pageResp (k + 1) (urls.getD k "") = .timeout →
      ("Timeout downloading page " ++ toString (k + 1)) ∈
        (download_chapter env s c o fs0).1.err) ∧
    (∀ k m, k < urls.length → env.pageResp (k + 1) (urls.getD k "") = .reqError m →
      ("Failed to download page " ++ toString (k + 1) ++ ": " ++ m) ∈
        (download_chapter env s c o fs0).1.err) := by
  have hne : urls ≠ [] := by
    intro h
    rw [h] at hk0
    simp at hk0
  obtain ⟨xo, xe, hbody⟩ := body_reaches_after_pages env s c o fs0 doc chs rec
    gs u det urls hmk hser hch hrec htr hgr hsel hdet hurls hne hmk2
  have H : ∀ k, k < urls.length → ∀ ct body,
      env.pageResp (1 + k) (urls.getD k "") = .ok ct body →
      env.writeErr (ospJoin (chapter_dir s c o)
        (pageFileName (1 + k) (inferExt ct))) = none :=
    fun k _ ct body _ => hw _
  have hloop := downloadPages_eq env (chapter_dir s c o) urls.length urls 1
    { fs := (fs0.mkdir o).mkdir (chapter_dir s c o), out := xo, err := xe,
      gets := [series_url_of s, "https://cubari.moe" ++ u] } [] H
  unfold after_pages at hbody
  rw [hloop] at hbody
  have hpos : 0 < (okPairs env (chapter_dir s c o) urls 1).length :=
    okPairs_pos_of_ok env (chapter_dir s c o) urls 1 k0 hk0 (by
      rw [show 1 + k0 = k0 + 1 by omega]
      exact hok0)
  simp only [List.nil_append] at hbody
  rw [if_pos (by simpa using hpos)] at hbody
  rw [download_chapter_of_body_ok env s c o fs0 _ _ hbody]
  refine ⟨rfl, rfl, ?_, ?_⟩
  · intro k hk htime
    have hm := loopErr_mem_timeout env urls 1 k hk (by
      rw [show 1 + k = k + 1 by omega]
      exact htime)
    rw [show 1 + k = k + 1 by omega] at hm
    exact List.mem_append.mpr (Or.inr hm)
  · intro k m hk herr
    have hm := loopErr_mem_reqError env urls 1 k m hk (by
      rw [show 1 + k = k + 1 by omega]
      exact herr)
    rw [show 1 + k = k + 1 by omega] at hm
    exact List.mem_append.mpr (Or.inr hm)

/-- Witness for C2 amended: two pages, the first saved, the second timing
out; the run still succeeds with the chapter directory, requests both
pages, and logs the timeout. -/
theorem c2_witness :
    (download_chapter envMixed "s" "1" "o" ⟨[], []⟩).2 = some (chapter_dir "s" "1" "o") ∧
    (download_chapter envMixed "s" "1" "o" ⟨[], []⟩).1.gets =
      [series_url_of "s", "https://cubari.moe" ++ "/g"] ++ ["u1", "u2"] ∧
    ("Timeout downloading page " ++ toString (1 + 1)) ∈
      (download_chapter envMixed "s" "1" "o" ⟨[], []⟩).1.err := by
  have h := c2_amended envMixed "s" "1" "o" ⟨[], []⟩ sampleDoc
    [("1", ⟨some [("1", "/g")], false⟩)] ⟨some [("1", "/g")], false⟩
    [("1", "/g")] "/g" (.jlist ["u1", "u2"]) ["u1", "u2"] rfl rfl rfl
    (by decide) (by decide) rfl (by decide) rfl rfl rfl (fun p => rfl)
    0 (by decide) (by decide)
  exact ⟨h.1, h.2.1, h.2.2.1 1 (by decide) (by decide)⟩

/-- C1: for every chapter whose page list has `N ≥ 1` entries and for which
every page download (fetch and save) succeeds, `download_chapter` creates
the chapter directory, the resulting filesystem (starting with no files)
holds exactly `N` files, the file for the page at 1-based index `i` is
named `page_` followed by the zero-padded 3-digit index and the inferred
extension (`pageFileName (k+1) ...` is `"page_" ++ pad3 (k+1) ++ "." ++ ext`),
and the function returns the path of the chapter directory. -/
theorem c1_all_pages_succeed (env : Env) (s c o : String) (dirs0 : List String)
    (doc : SeriesDoc) (chs : List (String × ChapterRec)) (rec : ChapterRec)
    (gs : List (String × String)) (u : String) (det : ChapterDetails)
    (urls : List String)
    (hmk : env.makedirsErr o = none)
    (hser : env.seriesResp = .ok doc)
    (hch : doc.chapters = some chs)
    (hrec : dictGet chs c = some rec)
    (htr : rec.truthy = true)
    (hgr : rec.groups = some gs)
    (hsel : selectGroupUrl gs = some u)
    (hdet : env.detailsResp ("https://cubari.moe" ++ u) = .ok det)
    (hurls : imageUrlsOf det = some urls)
    (hpos : 1 ≤ urls.length)
    (hmk2 : env.makedirsErr (chapter_dir s c o) = none)
    (hok : ∀ k, k < urls.length →
      (env.pageResp (k + 1) (urls.getD k "")).isOk = true)
    (hw : ∀ p, env.writeErr p = none) :
    (download_chapter env s c o ⟨dirs0, []⟩).2 = some (chapter_dir s c o) ∧
    chapter_dir s c o ∈ (download_chapter env s c o ⟨dirs0, []⟩).1.fs.dirs ∧
    (download_chapter env s c o ⟨dirs0, []⟩).1.fs.files.map Prod.fst =
      (List.range urls.length).map (fun k =>
        ospJoin (chapter_dir s c o) (pageFileName (k + 1)
          (inferExt (pageCT env (k + 1) (urls.getD k ""))))) := by
  have hne : urls ≠ [] := by
    intro h
    rw [h] at hpos
    simp at hpos
  obtain ⟨xo, xe, hbody⟩ := body_reaches_after_pages env s c o ⟨dirs0, []⟩ doc
    chs rec gs u det urls hmk hser hch hrec htr hgr hsel hdet hurls hne hmk2
  have H : ∀ k, k < urls.length → ∀ ct body,
      env.pageResp (1 + k) (urls.getD k "") = .ok ct body →
      env.writeErr (ospJoin (chapter_dir s c o)
        (pageFileName (1 + k) (inferExt ct))) = none :=
    fun k _ ct body _ => hw _
  have hloop := downloadPages_eq env (chapter_dir s c o) urls.length urls 1
    { fs := (Fs.mkdir ⟨dirs0, []⟩ o).mkdir (chapter_dir s c o), out := xo,
      err := xe, gets := [series_url_of s, "https://cubari.moe" ++ u] } [] H
  unfold after_pages at hbody
  rw [hloop] at hbody
  have hokshift : ∀ k, k < urls.length →
      (env.pageResp (1 + k) (urls.getD k "")).isOk = true := fun k hk => by
    rw [show 1 + k = k + 1 by omega]
    exact hok k hk
  have hpairs := okPairs_all_ok env (chapter_dir s c o) urls 1 hokshift
  have hlenpos : 0 <
      ((okPairs env (chapter_dir s c o) urls 1).map Prod.fst).length := by
    rw [hpairs]
    simpa using hpos
  simp only [List.nil_append] at hbody
  rw [if_pos hlenpos] at hbody
  rw [download_chapter_of_body_ok env s c o ⟨dirs0, []⟩ _ _ hbody]
  have hfs0 : ((Fs.mkdir ⟨dirs0, []⟩ o).mkdir (chapter_dir s c o)).files = [] := by
    rw [Fs.mkdir_files, Fs.mkdir_files]
  have hwfiles := writeAll_files (okPairs env (chapter_dir s c o) urls 1)
    ((Fs.mkdir ⟨dirs0, []⟩ o).mkdir (chapter_dir s c o))
    (by
      rw [hfs0]
      intro pr _ q hq
      simp at hq)
    (okPairs_pairwise env (chapter_dir s c o) urls 1)
  refine ⟨rfl, ?_, ?_⟩
  · dsimp only
    rw [writeAll_dirs]
    exact (Fs.mem_mkdir_dirs _ _ _).mpr (Or.inr rfl)
  · dsimp only
    rw [hwfiles, hfs0, List.nil_append, hpairs]
    refine List.map_congr_left ?_
    intro k _
    rw [show 1 + k = k + 1 by omega]

/-- Witness for C1: the two-page happy-path environment. -/
theorem c1_witness :
    (download_chapter envHappy "s" "1" "o" ⟨[], []⟩).2 = some (chapter_dir "s" "1" "o") ∧
    chapter_dir "s" "1" "o" ∈ (download_chapter envHappy "s" "1" "o" ⟨[], []⟩).1.fs.dirs ∧
    (download_chapter envHappy "s" "1" "o" ⟨[], []⟩).1.fs.files.map Prod.fst =
      (List.range (["u1", "u2"] : List String).length).map (fun k =>
        ospJoin (chapter_dir "s" "1" "o") (pageFileName (k + 1)
          (inferExt (pageCT envHappy (k + 1) (["u1", "u2"].getD k ""))))) :=
  c1_all_pages_succeed envHappy "s" "1" "o" [] sampleDoc
    [("1", ⟨some [("1", "/g")], false⟩)] ⟨some [("1", "/g")], false⟩
    [("1", "/g")] "/g" (.jlist ["u1", "u2"]) ["u1", "u2"] rfl rfl rfl
    (by decide) (by decide) rfl (by decide) rfl rfl (by decide) rfl
    (by decide) (fun p => rfl)

lemma select_group_fs (c : String) (gs : List (String × String)) (st : St) :
    (select_group c gs st).1.fs = st.fs := by
  obtain ⟨xo, xe, h⟩ := select_group_eq c gs st
  rw [h]

lemma fetch_pages_dirs (env : Env) (s c o gu : String) (st0 : St)
    (hd0 : chapter_dir s c o ∉ st0.fs.dirs)
    (hw : ∀ p, env.writeErr p = none)
    (hrm : env.rmdirErr (chapter_dir s c o) = none) :
    (fetch_pages_phase env s c o gu st0).2 = .ok (some (chapter_dir s c o)) ∨
    chapter_dir s c o ∉ (fetch_pages_phase env s c o gu st0).1.fs.dirs := by
  cases hd : env.detailsResp ("https://cubari.moe" ++ gu) with
  | error m =>
    right
    simp only [fetch_pages_phase, hd]
    exact hd0
  | ok det =>
    cases hurls : imageUrlsOf det with
    | none =>
      right
      simp only [fetch_pages_phase, hd, hurls]
      exact hd0
    | some urls =>
      by_cases hz : urls.length = 0
      · right
        simp only [fetch_pages_phase, hd, hurls, if_pos hz]
        exact hd0
      · cases hmk : env.makedirsErr (chapter_dir s c o) with
        | some m =>
          right
          simp only [fetch_pages_phase, hd, hurls, if_neg hz, hmk]
          exact hd0
        | none =>
          have H : ∀ k, k < urls.length → ∀ ct body,
              env.pageResp (1 + k) (urls.getD k "") = .ok ct body →
              env.writeErr (ospJoin (chapter_dir s c o)
                (pageFileName (1 + k) (inferExt ct))) = none :=
            fun k _ ct body _ => hw _
          have hloop := downloadPages_eq env (chapter_dir s c o) urls.length
            urls 1 { st0 with
              fs := st0.fs.mkdir (chapter_dir s c o),
              out := st0.out ++
                ["Fetching chapter details from: " ++ ("https://cubari.moe" ++ gu)] ++
                ["Successfully fetched chapter details."] ++
                ["Found " ++ toString urls.length ++ " pages for chapter " ++ c ++ "."] ++
                ["Output directory: " ++ chapter_dir s c o],
              gets := st0.gets ++ ["https://cubari.moe" ++ gu] } [] H
          simp only [fetch_pages_phase, hd, hurls, if_neg hz, hmk, after_pages]
          rw [hloop]
          simp only [List.nil_append]
          by_cases hp : 0 < ((okPairs env (chapter_dir s c o) urls 1).map Prod.fst).length
          · left
            rw [if_pos hp]
          · right
            rw [if_neg hp]
            simp only [hrm]
            intro hm
            exact ((Fs.mem_rmdir_dirs _ _ _).mp hm).2 rfl

lemma body_dirs (env : Env) (s c o : String) (fs0 : Fs)
    (hdirs : chapter_dir s c o ∉ fs0.dirs)
    (hw : ∀ p, env.writeErr p = none)
    (hrm : env.rmdirErr (chapter_dir s c o) = none) :
    (download_chapter_body env s c o fs0).2 = .ok (some (chapter_dir s c o)) ∨
    chapter_dir s c o ∉ (download_chapter_body env s c o fs0).1.fs.dirs := by
  have hnotm : chapter_dir s c o ∉ (fs0.mkdir o).dirs := by
    intro hm
    rcases (Fs.mem_mkdir_dirs fs0 o _).mp hm with h | h
    · exact hdirs h
    · exact chapter_dir_ne_output s c o h
  unfold download_chapter_body
  dsimp only
  repeat' split
  all_goals first
    | exact Or.inr hdirs
    | exact Or.inr hnotm
    | (right
       rw [select_group_fs]
       exact hnotm)
    | (exact fetch_pages_dirs env s c o _ _
        (by rw [select_group_fs]; exact hnotm) hw hrm)

/-- Counterexample to C3 as stated: a run that signals failure (returns
`None`) and still leaves new directories on the filesystem — starting from
an empty filesystem, both the base output directory and the chapter
directory persist, because every page download fails and the best-effort
`os.rmdir` raises. -/
theorem c3_counterexample :
    (download_chapter envAllFailRmErr "s" "1" "o" ⟨[], []⟩).2 = none ∧
    "o/s_Chapter_1" ∈ (download_chapter envAllFailRmErr "s" "1" "o" ⟨[], []⟩).1.fs.dirs ∧
    "o" ∈ (download_chapter envAllFailRmErr "s" "1" "o" ⟨[], []⟩).1.fs.dirs := by
  exact ⟨by decide, by decide, by decide⟩

/-- C3 amended, both arms of the contract.  Success arm: on the happy
metadata path with no file-write errors and at least one page fetch
succeeding, starting from a filesystem with no files, `download_chapter`
returns the path of the chapter directory, that directory exists, and the
files on disk are exactly `okPairs` — one file per successfully downloaded
page, at its page path with the response body.  Failure arm: when the run
signals failure with `None`, the base output directory (created up-front)
may persist, but with no write errors and a succeeding `os.rmdir` no
chapter directory persists (it can persist only when its best-effort
removal fails or an unexpected error aborts the run after its
creation). -/
theorem c3_amended :
    (∀ (env : Env) (s c o : String) (dirs0 : List String) (doc : SeriesDoc)
      (chs : List (String × ChapterRec)) (rec : ChapterRec)
      (gs : List (String × String)) (u : String) (det : ChapterDetails)
      (urls : List String) (k0 : Nat),
      env.makedirsErr o = none → env.seriesResp = .ok doc →
      doc.chapters = some chs → dictGet chs c = some rec →
      rec.truthy = true → rec.groups = some gs →
      selectGroupUrl gs = some u →
      env.detailsResp ("https://cubari.moe" ++ u) = .ok det →
      imageUrlsOf det = some urls →
      env.makedirsErr (chapter_dir s c o) = none →
      (∀ p, env.writeErr p = none) →
      k0 < urls.length →
      (env.pageResp (k0 + 1) (urls.getD k0 "")).isOk = true →
      (download_chapter env s c o ⟨dirs0, []⟩).2 = some (chapter_dir s c o) ∧
      chapter_dir s c o ∈ (download_chapter env s c o ⟨dirs0, []⟩).1.fs.dirs ∧
      (download_chapter env s c o ⟨dirs0, []⟩).1.fs.files =
        okPairs env (chapter_dir s c o) urls 1) ∧
    (∀ (env : Env) (s c o : String) (fs0 : Fs),
      chapter_dir s c o ∉ fs0.dirs →
      (∀ p, env.writeErr p = none) →
      env.rmdirErr (chapter_dir s c o) = none →
      (download_chapter env s c o fs0).2 = none →
      chapter_dir s c o ∉ (download_chapter env s c o fs0).1.fs.dirs) := by
  constructor
  · intro env s c o dirs0 doc chs rec gs u det urls k0 hmk hser hch hrec htr
      hgr hsel hdet hurls hmk2 hw hk0 hok0
    have hne : urls ≠ [] := by
      intro h
      rw [h] at hk0
      simp at hk0
    obtain ⟨xo, xe, hbody⟩ := body_reaches_after_pages env s c o ⟨dirs0, []⟩
      doc chs rec gs u det urls hmk hser hch hrec htr hgr hsel hdet hurls hne hmk2
    have H : ∀ k, k < urls.length → ∀ ct body,
        env.pageResp (1 + k) (urls.getD k "") = .ok ct body →
        env.writeErr (ospJoin (chapter_dir s c o)
          (pageFileName (1 + k) (inferExt ct))) = none :=
      fun k _ ct body _ => hw _
    have hloop := downloadPages_eq env (chapter_dir s c o) urls.length urls 1
      { fs := (Fs.mkdir ⟨dirs0, []⟩ o).mkdir (chapter_dir s c o), out := xo,
        err := xe, gets := [series_url_of s, "https://cubari.moe" ++ u] } [] H
    unfold after_pages at hbody
    rw [hloop] at hbody
    have hpos : 0 < (okPairs env (chapter_dir s c o) urls 1).length :=
      okPairs_pos_of_ok env (chapter_dir s c o) urls 1 k0 hk0 (by
        rw [show 1 + k0 = k0 + 1 by omega]
        exact hok0)
    simp only [List.nil_append] at hbody
    rw [if_pos (by simpa using hpos)] at hbody
    rw [download_chapter_of_body_ok env s c o ⟨dirs0, []⟩ _ _ hbody]
    have hfs0 : ((Fs.mkdir ⟨dirs0, []⟩ o).mkdir (chapter_dir s c o)).files = [] := by
      rw [Fs.mkdir_files, Fs.mkdir_files]
    have hwfiles := writeAll_files (okPairs env (chapter_dir s c o) urls 1)
      ((Fs.mkdir ⟨dirs0, []⟩ o).mkdir (chapter_dir s c o))
      (by
        rw [hfs0]
        intro pr _ q hq
        simp at hq)
      (okPairs_pairwise env (chapter_dir s c o) urls 1)
    refine ⟨rfl, ?_, ?_⟩
    · dsimp only
      rw [writeAll_dirs]
      exact (Fs.mem_mkdir_dirs _ _ _).mpr (Or.inr rfl)
    · dsimp only
      rw [hwfiles, hfs0, List.nil_append]
  · intro env s c o fs0 hdirs hw hrm hres
    obtain ⟨xe, hst⟩ := download_chapter_st env s c o fs0
    have hfs : (download_chapter env s c o fs0).1.fs =
        (download_chapter_body env s c o fs0).1.fs := by rw [hst]
    rcases body_dirs env s c o fs0 hdirs hw hrm with h | h
    · exfalso
      rcases hb : download_chapter_body env s c o fs0 with ⟨stB, r⟩
      rw [hb] at h
      simp only at h
      rw [h] at hb
      rw [download_chapter_of_body_ok env s c o fs0 _ _ hb] at hres
      simp at hres
    · rw [hfs]
      exact h

/-- Witness for C3 amended: the success arm on a partial-success run (two
pages, the first saved, the second timing out) and the failure arm on an
all-fail run with a succeeding `os.rmdir`. -/
theorem c3_witness :
    ((download_chapter envMixed "s" "1" "o" ⟨[], []⟩).2 = some (chapter_dir "s" "1" "o") ∧
     chapter_dir "s" "1" "o" ∈ (download_chapter envMixed "s" "1" "o" ⟨[], []⟩).1.fs.dirs ∧
     (download_chapter envMixed "s" "1" "o" ⟨[], []⟩).1.fs.files =
       okPairs envMixed (chapter_dir "s" "1" "o") ["u1", "u2"] 1) ∧
    chapter_dir "s" "1" "o" ∉
      (download_chapter envAllFailRmOk "s" "1" "o" ⟨[], []⟩).1.fs.dirs := by
  refine ⟨c3_amended.1 envMixed "s" "1" "o" [] sampleDoc
      [("1", ⟨some [("1", "/g")], false⟩)] ⟨some [("1", "/g")], false⟩
      [("1", "/g")] "/g" (.jlist ["u1", "u2"]) ["u1", "u2"] 0 rfl rfl rfl
      (by decide) (by decide) rfl (by decide) rfl rfl rfl (fun p => rfl)
      (by decide) (by decide),
    c3_amended.2 envAllFailRmOk "s" "1" "o" ⟨[], []⟩ (by decide) (fun p => rfl)
      rfl (by decide)⟩

end MangaDL
